import Mathlib

/-!
# VeryGrid: scroll, selection and edit state of `src/verygrid.js`

A shallow embedding of the `VeryGrid` class.

Modelling conventions
* JavaScript numbers used for pixel quantities and cell values are rationals
  (`ℚ`); `Math.floor` / `Math.ceil` are `Int.floor` / `Int.ceil`.  The handlers
  are given in exact arithmetic; where the rounding of the operations decides
  a property it is explicit: `toF64` rounds to binary64 (`ensureCellVisibleF64`)
  and `toF32` to `f32` (the `Float32Array` uniform block and the shader's
  quotients, taken as correctly rounded).  `NaN` and the infinities are outside
  the model (a `NaN` parse result is `none`).
* Row / column numbers are `Int` (the sentinel `-1` means "no selection").
* `Float32Array` / `Uint32Array` are lists of fixed length: a store outside
  `0 .. length-1` is ignored, a load outside it gives `undefined` (`none`).
* The two GPU storage buffers are lists of 4-byte elements.
* `canvas.getBoundingClientRect()` and `canvas.width / devicePixelRatio`
  both denote the CSS size of the canvas (`render` assigns
  `canvas.width = rect.width * devicePixelRatio`); it is the `Viewport`.
* DOM output (overlay, counters, text canvas) is not part of the state.
-/

namespace VeryGrid

/-- Grid configuration fixed by the constructor (`totalRows`, `totalCols`,
`cellWidth`, `cellHeight`) and whether an `onChanged` callback was given. -/
structure Config where
  totalRows : Nat
  totalCols : Nat
  cellWidth : ℚ
  cellHeight : ℚ
  onChanged : Bool

/-- CSS size of the canvas: `rect.width`, `rect.height`. -/
structure Viewport where
  width : ℚ
  height : ℚ

/-- Inline editor element: its text (`editor.value`) and whether it has been
appended to the container (so that `editor.parentElement` exists). -/
structure Editor where
  value : String
  attached : Bool

/-- Mutable fields of a `VeryGrid` instance.  `editor` is `none` for `null`;
`changedLog` records each `onChanged` invocation, most recent first. -/
structure Grid where
  scrollX : ℚ
  scrollY : ℚ
  selectedRow : Int
  selectedCol : Int
  isEditing : Bool
  editor : Option Editor
  cellData : List ℚ
  cellColors : List Nat
  cellDataBuffer : List ℚ
  cellColorBuffer : List Nat
  changedLog : List (Int × Int × ℚ)

/-- Colour tag written for an increase, `0xFF00AA00`. -/
def colorUp : Nat := 0xFF00AA00

/-- Colour tag written otherwise, `0xFFAA0000`. -/
def colorDown : Nat := 0xFFAA0000

/-- Step of the arrow-key scroll, `const scrollSpeed = 200`. -/
def scrollSpeed : ℚ := 200

/-! ## Typed arrays and GPU buffers -/

/-- Typed-array load `a[idx]`: `none` (`undefined`) outside the array. -/
def taGet {α : Type} (a : List α) (idx : Int) : Option α :=
  if idx < 0 then none else a.get? idx.toNat

/-- Typed-array store `a[idx] = v`: ignored outside the array. -/
def taSet {α : Type} (a : List α) (idx : Int) (v : α) : List α :=
  if idx < 0 then a else a.set idx.toNat v

/-- Overwrite `buf` from element `k` on with the elements of `data`. -/
def overwrite {α : Type} : List α → Nat → List α → List α
  | [], _, _ => []
  | b :: bs, 0, [] => b :: bs
  | _ :: bs, 0, d :: ds => d :: overwrite bs 0 ds
  | b :: bs, k + 1, data => b :: overwrite bs k data

/-- Call `device.queue.writeBuffer(buf, byteOffset, data)` for a non-negative
byte offset, on buffers of 4-byte elements: the write happens when the offset
is a multiple of 4 and the data fits, otherwise the queue raises a validation
error and the buffer keeps its contents. -/
def writeBuffer {α : Type} (buf : List α) (byteOffset : Nat) (data : List α) : List α :=
  if byteOffset % 4 = 0 ∧ byteOffset / 4 + data.length ≤ buf.length then
    overwrite buf (byteOffset / 4) data
  else buf

/-- Method `uploadGPU`: both arrays are written whole at offset 0. -/
def uploadGPU (s : Grid) : Grid :=
  { s with
    cellDataBuffer := writeBuffer s.cellDataBuffer 0 s.cellData
    cellColorBuffer := writeBuffer s.cellColorBuffer 0 s.cellColors }

/-- One store made by the data-source callback through the grid handle. -/
inductive CellWrite where
  | data (idx : Int) (v : ℚ)
  | color (idx : Int) (c : Nat)

/-- Effect of one callback store on the two typed arrays. -/
def applyWrite (s : Grid) : CellWrite → Grid
  | .data idx v => { s with cellData := taSet s.cellData idx v }
  | .color idx c => { s with cellColors := taSet s.cellColors idx c }

/-- Method `updateCellData`: the data source (when present) runs, then
`uploadGPU`.  The callback is given as the stores it performs on
`cellData` / `cellColors`, which may depend on the grid it is handed. -/
def updateCellData (dataSource : Option (Grid → List CellWrite)) (s : Grid) : Grid :=
  match dataSource with
  | none => s
  | some f => uploadGPU ((f s).foldl applyWrite s)

/-! ## Visible range (`render`) -/

/-- Visible range computed by `render`. -/
structure VisibleRange where
  startRow : Int
  endRow : Int
  startCol : Int
  endCol : Int
deriving DecidableEq

/-- Lines 291-294 of `render`. -/
def visibleRange (cfg : Config) (vp : Viewport) (s : Grid) : VisibleRange :=
  { startCol := ⌊s.scrollX / cfg.cellWidth⌋
    endCol := min (cfg.totalCols : Int) ⌈(s.scrollX + vp.width) / cfg.cellWidth⌉
    startRow := ⌊s.scrollY / cfg.cellHeight⌋
    endRow := min (cfg.totalRows : Int) ⌈(s.scrollY + vp.height) / cfg.cellHeight⌉ }

/-- On-screen top-left corner of cell `(row, col)`:
`x = col * cellWidth - scrollX`, `y = row * cellHeight - scrollY`. -/
def cellToScreen (cfg : Config) (s : Grid) (row col : Int) : ℚ × ℚ :=
  ((col : ℚ) * cfg.cellWidth - s.scrollX, (row : ℚ) * cfg.cellHeight - s.scrollY)

/-- Hit test of the click handler for the canvas-relative point
`(px, py) = (clientX - rect.left, clientY - rect.top)`; gives `(row, col)`. -/
def screenToCell (cfg : Config) (s : Grid) (px py : ℚ) : Int × Int :=
  (⌊(py + s.scrollY) / cfg.cellHeight⌋, ⌊(px + s.scrollX) / cfg.cellWidth⌋)

/-! ## Selection and scrolling -/

/-- Method `selectCell`. -/
def selectCell (s : Grid) (row col : Int) : Grid :=
  { s with selectedRow := row, selectedCol := col }

/-- Method `ensureCellVisible`. -/
def ensureCellVisible (cfg : Config) (vp : Viewport) (s : Grid) (row col : Int) : Grid :=
  let cellX : ℚ := (col : ℚ) * cfg.cellWidth
  let cellY : ℚ := (row : ℚ) * cfg.cellHeight
  let sx : ℚ :=
    if cellX < s.scrollX then cellX
    else if cellX + cfg.cellWidth > s.scrollX + vp.width then cellX + cfg.cellWidth - vp.width
    else s.scrollX
  let sy : ℚ :=
    if cellY < s.scrollY then cellY
    else if cellY + cfg.cellHeight > s.scrollY + vp.height then cellY + cfg.cellHeight - vp.height
    else s.scrollY
  { s with scrollX := sx, scrollY := sy }

/-- Click handler at the canvas-relative point `(px, py)`. -/
def click (cfg : Config) (s : Grid) (px py : ℚ) : Grid :=
  if s.isEditing then s
  else
    let rc := screenToCell cfg s px py
    if 0 ≤ rc.1 ∧ rc.1 < (cfg.totalRows : Int) ∧ 0 ≤ rc.2 ∧ rc.2 < (cfg.totalCols : Int) then
      selectCell s rc.1 rc.2
    else s

/-- Scroll clamp of the wheel handler for one axis,
`Math.max(0, Math.min(p, limit))` with `limit = totalExtent - viewportExtent`. -/
def clampScroll (limit p : ℚ) : ℚ :=
  max 0 (min p limit)

/-- Wheel handler with deltas `(dx, dy)`. -/
def wheel (cfg : Config) (vp : Viewport) (s : Grid) (dx dy : ℚ) : Grid :=
  { s with
    scrollX := clampScroll ((cfg.totalCols : ℚ) * cfg.cellWidth - vp.width) (s.scrollX + dx)
    scrollY := clampScroll ((cfg.totalRows : ℚ) * cfg.cellHeight - vp.height) (s.scrollY + dy) }

/-! ## Inline editing -/

/-- Flattened index `row * totalCols + col`. -/
def cellIndex (cfg : Config) (row col : Int) : Int :=
  row * (cfg.totalCols : Int) + col

/-- Decimal digits of `x.toFixed(2)` for a rational `x` (ties round away from
zero, a negative `x` keeps its sign even when it rounds to zero). -/
def toFixed2 (x : ℚ) : String :=
  let n : Nat := (⌊|x| * 100 + 1 / 2⌋).toNat
  let frac : Nat := n % 100
  (if x < 0 then "-" else "") ++ toString (n / 100) ++ "."
    ++ (if frac < 10 then "0" else "") ++ toString frac

/-- Method `startEditing`.  When the selected index is outside `cellData` the
load is `undefined` and `.toFixed` throws: the handler stops there, with
`isEditing` set and a detached, empty editor. -/
def startEditing (cfg : Config) (s : Grid) : Grid :=
  if s.isEditing then s
  else
    match taGet s.cellData (cellIndex cfg s.selectedRow s.selectedCol) with
    | none => { s with isEditing := true, editor := some { value := "", attached := false } }
    | some v => { s with isEditing := true, editor := some { value := toFixed2 v, attached := true } }

/-- Double-click handler. -/
def dblclick (cfg : Config) (s : Grid) : Grid :=
  if 0 ≤ s.selectedRow ∧ 0 ≤ s.selectedCol then startEditing cfg s else s

/-- Lines 607-611 of `finishEditing`: the editor is removed from its parent
and edit mode ends; a detached editor has no parent and the removal throws,
leaving the fields as they are. -/
def closeEditor (s : Grid) (ed : Editor) : Grid :=
  if ed.attached then { s with editor := none, isEditing := false } else s

/-- Lines 589-602 of `finishEditing` for a parsed `value` and a non-negative
index `idx`: the two stores, the two one-element buffer writes at byte offset
`idx * 4`, and the `onChanged` call.  A load of `oldValue` outside the array
makes `change` not-a-number, hence the decrease tag. -/
def commitEdit (cfg : Config) (s : Grid) (idx : Nat) (value : ℚ) : Grid :=
  let tag : Nat :=
    match taGet s.cellData idx with
    | some oldValue => if value - oldValue > 0 then colorUp else colorDown
    | none => colorDown
  let colors := taSet s.cellColors idx tag
  { s with
    cellData := taSet s.cellData idx value
    cellColors := colors
    cellDataBuffer := writeBuffer s.cellDataBuffer (idx * 4) [value]
    cellColorBuffer := writeBuffer s.cellColorBuffer (idx * 4) [(taGet colors idx).getD 0]
    changedLog :=
      if cfg.onChanged then (s.selectedRow, s.selectedCol, value) :: s.changedLog
      else s.changedLog }

/-- Method `finishEditing(save)`.  `parseFloat` is the JavaScript built-in,
`none` standing for `NaN`.  With a negative index the two typed-array stores
are ignored and `writeBuffer` rejects the negative offset by throwing, so the
handler stops with the fields unchanged. -/
def finishEditing (cfg : Config) (parseFloat : String → Option ℚ) (s : Grid)
    (save : Bool) : Grid :=
  if s.isEditing = false then s
  else
    match s.editor with
    | none => s
    | some ed =>
      match (if save then parseFloat ed.value else none) with
      | none => closeEditor s ed
      | some value =>
        let idx := cellIndex cfg s.selectedRow s.selectedCol
        if idx < 0 then s
        else closeEditor (commitEdit cfg s idx.toNat value) ed

/-! ## Keyboard -/

/-- Values of `e.key` the handler distinguishes. -/
inductive Key where
  | Alt | Enter | Escape | ArrowUp | ArrowDown | ArrowLeft | ArrowRight | F2 | other
deriving DecidableEq

/-- Keydown handler while editing (lines 409-416): Enter commits, Escape
cancels, every other key is ignored. -/
def keydownEditing (cfg : Config) (parseFloat : String → Option ℚ) (s : Grid) : Key → Grid
  | .Enter => finishEditing cfg parseFloat s true
  | .Escape => finishEditing cfg parseFloat s false
  | _ => s

/-- Keydown handler while not editing: the `switch` of lines 421-470. -/
def keydownIdle (cfg : Config) (vp : Viewport) (s : Grid) : Key → Grid
  | .ArrowUp =>
    if s.selectedRow > 0 then
      ensureCellVisible cfg vp (selectCell s (s.selectedRow - 1) s.selectedCol)
        (s.selectedRow - 1) s.selectedCol
    else { s with scrollY := max 0 (s.scrollY - scrollSpeed) }
  | .ArrowDown =>
    if 0 ≤ s.selectedRow ∧ s.selectedRow < (cfg.totalRows : Int) - 1 then
      ensureCellVisible cfg vp (selectCell s (s.selectedRow + 1) s.selectedCol)
        (s.selectedRow + 1) s.selectedCol
    else
      { s with
        scrollY := min ((cfg.totalRows : ℚ) * cfg.cellHeight - vp.height)
          (s.scrollY + scrollSpeed) }
  | .ArrowLeft =>
    if s.selectedCol > 0 then
      ensureCellVisible cfg vp (selectCell s s.selectedRow (s.selectedCol - 1))
        s.selectedRow (s.selectedCol - 1)
    else { s with scrollX := max 0 (s.scrollX - scrollSpeed) }
  | .ArrowRight =>
    if 0 ≤ s.selectedCol ∧ s.selectedCol < (cfg.totalCols : Int) - 1 then
      ensureCellVisible cfg vp (selectCell s s.selectedRow (s.selectedCol + 1))
        s.selectedRow (s.selectedCol + 1)
    else
      { s with
        scrollX := min ((cfg.totalCols : ℚ) * cfg.cellWidth - vp.width)
          (s.scrollX + scrollSpeed) }
  | .Enter =>
    if 0 ≤ s.selectedRow ∧ 0 ≤ s.selectedCol then startEditing cfg s else s
  | .F2 =>
    if 0 ≤ s.selectedRow ∧ 0 ≤ s.selectedCol then startEditing cfg s else s
  | .Alt => s
  | .Escape => s
  | .other => s

/-- Keydown handler: Alt only shows the stats overlay; otherwise the key goes
to the editing or the navigation branch. -/
def keydown (cfg : Config) (vp : Viewport) (parseFloat : String → Option ℚ)
    (s : Grid) (key : Key) : Grid :=
  if key = Key.Alt then s
  else if s.isEditing then keydownEditing cfg parseFloat s key
  else keydownIdle cfg vp s key

/-! ## Initial state and runs -/

/-- State after the constructor and `setupPipeline`: the arrays as filled by
`initializeCellData` and both buffers created at the arrays' size and written
whole. -/
def initial (data : List ℚ) (colors : List Nat) : Grid :=
  { scrollX := 0
    scrollY := 0
    selectedRow := -1
    selectedCol := -1
    isEditing := false
    editor := none
    cellData := data
    cellColors := colors
    cellDataBuffer := data
    cellColorBuffer := colors
    changedLog := [] }

/-- Scroll and navigation inputs: wheel events, the four arrow keys and
direct `ensureCellVisible` calls. -/
inductive ScrollInput where
  | wheel (dx dy : ℚ)
  | arrowUp | arrowDown | arrowLeft | arrowRight
  | ensureVisible (row col : Int)

/-- Inputs admitted for a grid: `ensureCellVisible` only on in-grid cells. -/
def ScrollInput.admissible (cfg : Config) : ScrollInput → Prop
  | .ensureVisible row col =>
    0 ≤ row ∧ row < (cfg.totalRows : Int) ∧ 0 ≤ col ∧ col < (cfg.totalCols : Int)
  | _ => True

/-- Handler run for one scroll or navigation input. -/
def scrollStep (cfg : Config) (vp : Viewport) (parseFloat : String → Option ℚ)
    (s : Grid) : ScrollInput → Grid
  | .wheel dx dy => wheel cfg vp s dx dy
  | .arrowUp => keydown cfg vp parseFloat s Key.ArrowUp
  | .arrowDown => keydown cfg vp parseFloat s Key.ArrowDown
  | .arrowLeft => keydown cfg vp parseFloat s Key.ArrowLeft
  | .arrowRight => keydown cfg vp parseFloat s Key.ArrowRight
  | .ensureVisible row col => ensureCellVisible cfg vp s row col

/-- State after a sequence of scroll and navigation inputs. -/
def scrollRun (cfg : Config) (vp : Viewport) (parseFloat : String → Option ℚ)
    (s : Grid) (inputs : List ScrollInput) : Grid :=
  inputs.foldl (scrollStep cfg vp parseFloat) s

/-- Stored offsets within `[0, max(0, totalExtent - viewportExtent)]` on both axes. -/
def ScrollInRange (cfg : Config) (vp : Viewport) (s : Grid) : Prop :=
  0 ≤ s.scrollX ∧ s.scrollX ≤ max 0 ((cfg.totalCols : ℚ) * cfg.cellWidth - vp.width) ∧
  0 ≤ s.scrollY ∧ s.scrollY ≤ max 0 ((cfg.totalRows : ℚ) * cfg.cellHeight - vp.height)

/-- Both GPU buffers hold the arrays' contents. -/
def MirrorsSynced (s : Grid) : Prop :=
  s.cellDataBuffer = s.cellData ∧ s.cellColorBuffer = s.cellColors

/-! ## Built-in `parseFloat` on decimal text -/

/-- Value of a run of decimal digits. -/
def digitsValue (ds : List Char) : Nat :=
  ds.foldl (fun n c => 10 * n + (c.toNat - 48)) 0

/-- Exponent part of a decimal literal: `e` or `E`, an optional sign and at
least one digit; anything else contributes no exponent. -/
def exponentValue : List Char → Int
  | [] => 0
  | c :: rest =>
    if c = 'e' ∨ c = 'E' then
      match rest with
      | '-' :: ds =>
        if (ds.takeWhile Char.isDigit).isEmpty then 0
        else -((digitsValue (ds.takeWhile Char.isDigit) : Nat) : Int)
      | '+' :: ds => ((digitsValue (ds.takeWhile Char.isDigit) : Nat) : Int)
      | ds => ((digitsValue (ds.takeWhile Char.isDigit) : Nat) : Int)
    else 0

/-- Unsigned decimal literal at the head of `cs`: digits, an optional fraction
and an optional exponent; `none` when there is no digit. -/
def unsignedDecimal (cs : List Char) : Option ℚ :=
  let ip := cs.takeWhile Char.isDigit
  let afterInt := cs.dropWhile Char.isDigit
  let fp := match afterInt with
    | '.' :: r => r.takeWhile Char.isDigit
    | _ => []
  let afterFrac := match afterInt with
    | '.' :: r => r.dropWhile Char.isDigit
    | r => r
  if ip.isEmpty ∧ fp.isEmpty then none
  else
    some (((digitsValue ip : ℚ) + (digitsValue fp : ℚ) / 10 ^ fp.length)
      * (10 : ℚ) ^ exponentValue afterFrac)

/-- Reading of the built-in `parseFloat` on finite decimal text: leading white
space is skipped, then the longest prefix that is a signed decimal literal is
taken; `none` stands for `NaN`.  The literal `Infinity` is not covered. -/
def parseFloatDecimal (text : String) : Option ℚ :=
  match text.toList.dropWhile Char.isWhitespace with
  | '-' :: cs => (unsignedDecimal cs).map (fun v => -v)
  | '+' :: cs => unsignedDecimal cs
  | cs => unsignedDecimal cs

/-! ## Example grids -/

/-- Grid of 3 rows and 4 columns, smaller than an 800 x 600 viewport, with an
`onChanged` callback. -/
def smallConfig : Config :=
  { totalRows := 3, totalCols := 4, cellWidth := 80, cellHeight := 24, onChanged := true }

/-- The 3 x 4 grid in its initial state. -/
def smallGrid : Grid :=
  initial [10, 20, 30, 40, 50, 60, 70, 80, 90, 100, 110, 120]
    [colorUp, colorDown, colorUp, colorDown, colorUp, colorDown,
     colorUp, colorDown, colorUp, colorDown, colorUp, colorDown]

/-- Grid of 10 x 10 default-sized cells with an `onChanged` callback. -/
def tenConfig : Config :=
  { totalRows := 10, totalCols := 10, cellWidth := 80, cellHeight := 24, onChanged := true }

/-- The 10 x 10 grid with every cell at 100, cell (5, 5) selected and being
edited with draft `text`. -/
def tenGridEditing (text : String) : Grid :=
  { initial (List.replicate 100 100) (List.replicate 100 colorUp) with
    selectedRow := 5
    selectedCol := 5
    isEditing := true
    editor := some { value := text, attached := true } }

/-- Default grid of the constructor: 1000 x 1000 cells of 80 x 24 pixels. -/
def defaultConfig : Config :=
  { totalRows := 1000, totalCols := 1000, cellWidth := 80, cellHeight := 24, onChanged := false }

/-- Default grid in its initial state, every cell holding 100. -/
def defaultGrid : Grid :=
  initial (List.replicate 1000000 100) (List.replicate 1000000 colorUp)

/-- Viewport of 800 x 600 pixels. -/
def viewport800x600 : Viewport :=
  { width := 800, height := 600 }

/-- Grid of one-pixel cells. -/
def unitCellConfig : Config :=
  { totalRows := 1000, totalCols := 1000, cellWidth := 1, cellHeight := 1, onChanged := false }

/-- The full rectangle of cell `(row, col)` lies within the viewport. -/
def CellFullyVisible (cfg : Config) (vp : Viewport) (s : Grid) (row col : Int) : Prop :=
  (col : ℚ) * cfg.cellWidth ≥ s.scrollX ∧
  (col : ℚ) * cfg.cellWidth + cfg.cellWidth ≤ s.scrollX + vp.width ∧
  (row : ℚ) * cfg.cellHeight ≥ s.scrollY ∧
  (row : ℚ) * cfg.cellHeight + cfg.cellHeight ≤ s.scrollY + vp.height

/-- Viewport narrower than one default cell. -/
def viewport50x600 : Viewport :=
  { width := 50, height := 600 }

/-! ## State predicates -/

/-- Cell `(r, c)` is inside the grid. -/
def InGrid (cfg : Config) (r c : Int) : Prop :=
  0 ≤ r ∧ r < (cfg.totalRows : Int) ∧ 0 ≤ c ∧ c < (cfg.totalCols : Int)

instance (cfg : Config) (r c : Int) : Decidable (InGrid cfg r c) := by
  unfold InGrid
  infer_instance

/-- Both arrays have `cellCount = totalRows * totalCols` entries. -/
def StoreSized (cfg : Config) (s : Grid) : Prop :=
  s.cellData.length = cfg.totalRows * cfg.totalCols ∧
  s.cellColors.length = cfg.totalRows * cfg.totalCols

/-- Editing state on the in-grid cell `(r, c)`: `isEditing` is set, the editor
`ed` is in the container and `(r, c)` is the selection. -/
def EditingOn (cfg : Config) (s : Grid) (r c : Int) (ed : Editor) : Prop :=
  s.isEditing = true ∧ s.editor = some ed ∧ ed.attached = true ∧
  s.selectedRow = r ∧ s.selectedCol = c ∧ InGrid cfg r c

/-- No selection, or an in-grid cell selected. -/
def SelectionValid (cfg : Config) (s : Grid) : Prop :=
  (s.selectedRow = -1 ∧ s.selectedCol = -1) ∨ InGrid cfg s.selectedRow s.selectedCol

/-! ## Binary floating point -/

/-- Nearest integer to `y`, ties to the even neighbour. -/
def roundNearestEven (y : ℚ) : Int :=
  if y - ⌊y⌋ < 1 / 2 then ⌊y⌋
  else if 1 / 2 < y - ⌊y⌋ then ⌊y⌋ + 1
  else if ⌊y⌋ % 2 = 0 then ⌊y⌋ else ⌊y⌋ + 1

/-- Spacing of the binary floating-point numbers with `p` significant bits
around `x`: `2 ^ (floor(log2 |x|) - (p - 1))`. -/
def binaryUlp (p : Nat) (x : ℚ) : ℚ :=
  (2 : ℚ) ^ (Int.log 2 |x| - ((p : Int) - 1))

/-- Rounding of `x` to the nearest binary floating-point number with `p`
significant bits, ties to even (normal range, no overflow). -/
def roundBinary (p : Nat) (x : ℚ) : ℚ :=
  if x = 0 then 0
  else (roundNearestEven (x / binaryUlp p x) : ℚ) * binaryUlp p x

/-- Rounding to `f32` (24 significant bits): a `Float32Array` store and the
result of a shader `f32` operation. -/
def toF32 (x : ℚ) : ℚ :=
  roundBinary 24 x

/-- Rounding to a JavaScript number (binary64, 53 significant bits): the
result of one arithmetic operation. -/
def toF64 (x : ℚ) : ℚ :=
  roundBinary 53 x

/-- Method `ensureCellVisible` with the result of every multiplication,
addition and subtraction of lines 529-545 rounded to binary64. -/
def ensureCellVisibleF64 (cfg : Config) (vp : Viewport) (s : Grid) (row col : Int) : Grid :=
  let cellX : ℚ := toF64 ((col : ℚ) * cfg.cellWidth)
  let cellY : ℚ := toF64 ((row : ℚ) * cfg.cellHeight)
  let sx : ℚ :=
    if cellX < s.scrollX then cellX
    else if toF64 (cellX + cfg.cellWidth) > toF64 (s.scrollX + vp.width) then
      toF64 (toF64 (cellX + cfg.cellWidth) - vp.width)
    else s.scrollX
  let sy : ℚ :=
    if cellY < s.scrollY then cellY
    else if toF64 (cellY + cfg.cellHeight) > toF64 (s.scrollY + vp.height) then
      toF64 (toF64 (cellY + cfg.cellHeight) - vp.height)
    else s.scrollY
  { s with scrollX := sx, scrollY := sy }

/-- Grid of 1000 x 1000 cells whose width is the double nearest to 80.1. -/
def fractionalCellConfig : Config :=
  { totalRows := 1000, totalCols := 1000,
    cellWidth := 2818268204315443 / 35184372088832, cellHeight := 24, onChanged := false }

/-- Viewport 600 pixels high whose width is the double nearest to 800.1. -/
def fractionalViewport : Viewport :=
  { width := 7037754027068621 / 8796093022208, height := 600 }

/-! ## Instance grid (`render` and `vs_main`) -/

/-- Line 296 of `render`: `Math.ceil(viewportWidth / cellWidth) + 1`. -/
def visibleCols (cfg : Config) (vp : Viewport) : Int :=
  ⌈vp.width / cfg.cellWidth⌉ + 1

/-- Line 297 of `render`: `Math.ceil(viewportHeight / cellHeight) + 1`. -/
def visibleRows (cfg : Config) (vp : Viewport) : Int :=
  ⌈vp.height / cfg.cellHeight⌉ + 1

/-- Line 298 of `render`: the instance count handed to `draw`. -/
def visibleCells (cfg : Config) (vp : Viewport) : Int :=
  visibleCols cfg vp * visibleRows cfg vp

/-- Number of `u32` values, `2^32`. -/
def u32Size : Nat := 4294967296

/-- Shader conversion `u32(x)` of a float: rounded towards zero and clamped to
the `u32` range. -/
def toU32 (x : ℚ) : Nat :=
  min (⌊x⌋.toNat) (u32Size - 1)

/-- Shader `u32` addition, wrapping at `2^32`. -/
def u32Add (a b : Nat) : Nat :=
  (a + b) % u32Size

/-- Shader `u32` remainder; a zero divisor gives 0. -/
def u32Mod (a b : Nat) : Nat :=
  if b = 0 then 0 else a % b

/-- Shader `u32` division; a zero divisor gives the dividend. -/
def u32Div (a b : Nat) : Nat :=
  if b = 0 then a else a / b

/-- Integer part of lines 110-123 of `vs_main`, on the `u32` values obtained
from the uniforms (`ceilCols = u32(ceil(viewportWidth / cellWidth))`): the grid
cell `(row, col)` of an instance, `none` when it falls outside the grid and the
instance collapses to a zero-size quad. -/
def vsResolve (ceilCols startCol startRow totalCols totalRows instanceIndex : Nat) :
    Option (Nat × Nat) :=
  let visCols := u32Add ceilCols 1
  let localCol := u32Mod instanceIndex visCols
  let localRow := u32Div instanceIndex visCols
  let col := u32Add startCol localCol
  let row := u32Add startRow localRow
  if col ≥ totalCols ∨ row ≥ totalRows then none else some (row, col)

/-- Uniform block of the shader: the eight `f32` fields of `struct Uniforms`. -/
structure Uniforms where
  scrollX : ℚ
  scrollY : ℚ
  viewportWidth : ℚ
  viewportHeight : ℚ
  cellWidth : ℚ
  cellHeight : ℚ
  totalRows : ℚ
  totalCols : ℚ

/-- Lines 277-288 of `render`: the eight numbers stored into a `Float32Array`
and written to the uniform buffer. -/
def uniformData (cfg : Config) (vp : Viewport) (s : Grid) : Uniforms :=
  { scrollX := toF32 s.scrollX
    scrollY := toF32 s.scrollY
    viewportWidth := toF32 vp.width
    viewportHeight := toF32 vp.height
    cellWidth := toF32 cfg.cellWidth
    cellHeight := toF32 cfg.cellHeight
    totalRows := toF32 (cfg.totalRows : ℚ)
    totalCols := toF32 (cfg.totalCols : ℚ) }

/-- Lines 110-123 of `vs_main` on a uniform block: the three `f32` quotients,
their `ceil` / `floor`, the conversions to `u32` and the integer part. -/
def vsMain (u : Uniforms) (instanceIndex : Nat) : Option (Nat × Nat) :=
  vsResolve (toU32 (⌈toF32 (u.viewportWidth / u.cellWidth)⌉ : ℚ))
    (toU32 (⌊toF32 (u.scrollX / u.cellWidth)⌋ : ℚ))
    (toU32 (⌊toF32 (u.scrollY / u.cellHeight)⌋ : ℚ))
    (toU32 u.totalCols) (toU32 u.totalRows) instanceIndex

/-- Grid cell resolved by the vertex stage for a `u32` instance index, on the
uniform block written by `render`. -/
def vsCell (cfg : Config) (vp : Viewport) (s : Grid) (instanceIndex : Nat) :
    Option (Nat × Nat) :=
  vsMain (uniformData cfg vp s) instanceIndex

/-- Grid of 50000 x 10 cells of 1/128 x 1/128 pixels. -/
def tinyCellConfig : Config :=
  { totalRows := 50000, totalCols := 10, cellWidth := 1 / 128, cellHeight := 1 / 128,
    onChanged := false }

/-- The grid of `tinyCellConfig` in its initial state. -/
def tinyCellGrid : Grid :=
  initial (List.replicate 500000 100) (List.replicate 500000 colorUp)

/-- Default grid after one wheel event with `deltaX = 79.9999999`. -/
def nearColumnGrid : Grid :=
  wheel defaultConfig viewport800x600 defaultGrid (799999999 / 10000000) 0

/-! ## Text loop of `render` -/

/-- Values of a loop `for (let k = lo; k < hi; k++)`. -/
def loopRange (lo hi : Int) : List Int :=
  (List.range (hi - lo).toNat).map (fun (k : Nat) => lo + (k : Int))

/-- Cells `(row, col)` visited by the text loop of `render` (lines 326-327),
in visiting order. -/
def textLoopCells (cfg : Config) (vp : Viewport) (s : Grid) : List (Int × Int) :=
  (loopRange (visibleRange cfg vp s).startRow (visibleRange cfg vp s).endRow).flatMap
    (fun row =>
      (loopRange (visibleRange cfg vp s).startCol (visibleRange cfg vp s).endCol).map
        (fun col => (row, col)))

/-- Loads of one iteration of the text loop (lines 328-330):
`cellData[idx]` and `cellColors[idx]` with `idx = row * totalCols + col`. -/
def textLoopRead (cfg : Config) (s : Grid) (row col : Int) : Option ℚ × Option Nat :=
  (taGet s.cellData (cellIndex cfg row col), taGet s.cellColors (cellIndex cfg row col))

/-! ## Events -/

/-- The user replaces the text of the inline editor, when there is one. -/
def typeText (s : Grid) (text : String) : Grid :=
  match s.editor with
  | none => s
  | some ed => { s with editor := some { ed with value := text } }

/-- Inputs of a session: pointer and wheel events, key presses, typing into the
editor, a direct commit or cancel of the edit, and the periodic refresh. -/
inductive Event where
  | click (px py : ℚ)
  | dblclick
  | wheel (dx dy : ℚ)
  | keydown (key : Key)
  | typeText (text : String)
  | finish (save : Bool)
  | refresh (dataSource : Option (Grid → List CellWrite))

/-- Handler run for one event. -/
def step (cfg : Config) (vp : Viewport) (parseFloat : String → Option ℚ)
    (s : Grid) : Event → Grid
  | .click px py => click cfg s px py
  | .dblclick => dblclick cfg s
  | .wheel dx dy => wheel cfg vp s dx dy
  | .keydown key => keydown cfg vp parseFloat s key
  | .typeText text => typeText s text
  | .finish save => finishEditing cfg parseFloat s save
  | .refresh dataSource => updateCellData dataSource s

/-- State after a sequence of events. -/
def run (cfg : Config) (vp : Viewport) (parseFloat : String → Option ℚ)
    (s : Grid) (events : List Event) : Grid :=
  events.foldl (step cfg vp parseFloat) s

/-- Selection invariant: the selection is empty or an in-grid cell, and it is
an in-grid cell whenever `isEditing` is set. -/
def SelectionInvariant (cfg : Config) (s : Grid) : Prop :=
  SelectionValid cfg s ∧ (s.isEditing = true → InGrid cfg s.selectedRow s.selectedCol)

/-! # Properties -/

/-! ## Scroll clamp -/

theorem clampScroll_nonneg (limit p : ℚ) : 0 ≤ clampScroll limit p :=
  le_max_left _ _

theorem clampScroll_le (limit p : ℚ) : clampScroll limit p ≤ max 0 limit :=
  max_le_max (le_refl 0) (min_le_right p limit)

theorem clampScroll_of_mem (limit p : ℚ) (h0 : 0 ≤ p) (h1 : p ≤ max 0 limit) :
    clampScroll limit p = p := by
  unfold clampScroll
  rcases le_total limit 0 with hl | hl
  · have hp : p = 0 := le_antisymm (by simpa [max_eq_left hl] using h1) h0
    subst hp
    simp [hl]
  · rw [max_eq_right hl] at h1
    rw [min_eq_left h1, max_eq_right h0]

/-- C5: the wheel handler stores the clamp `max(0, min(p, totalExtent - viewportExtent))`
of the proposed offset on each axis independently; the clamp is idempotent and
its result always lies in `[0, max(0, totalExtent - viewportExtent)]`. -/
theorem clampScroll_idempotent_and_bounded (cfg : Config) (vp : Viewport) (s : Grid)
    (dx dy limit p : ℚ) :
    (wheel cfg vp s dx dy).scrollX
        = clampScroll ((cfg.totalCols : ℚ) * cfg.cellWidth - vp.width) (s.scrollX + dx) ∧
    (wheel cfg vp s dx dy).scrollY
        = clampScroll ((cfg.totalRows : ℚ) * cfg.cellHeight - vp.height) (s.scrollY + dy) ∧
    clampScroll limit p = max 0 (min p limit) ∧
    clampScroll limit (clampScroll limit p) = clampScroll limit p ∧
    0 ≤ clampScroll limit p ∧ clampScroll limit p ≤ max 0 limit :=
  ⟨rfl, rfl, rfl,
    clampScroll_of_mem limit _ (clampScroll_nonneg limit p) (clampScroll_le limit p),
    clampScroll_nonneg limit p, clampScroll_le limit p⟩

/-! ## Visible range of the default scenario -/

/-- C6 (as stated, refuted): in the 1000 x 1000 / 80 x 24 / 800 x 600 scenario
at scroll (0, 0) the visible range of `render` is not rows [0, 26), columns [0, 11). -/
theorem visibleRange_scenario_not_26_11 :
    visibleRange defaultConfig viewport800x600
        defaultGrid
      ≠ { startRow := 0, endRow := 26, startCol := 0, endCol := 11 } := by
  intro h
  have h2 := congrArg VisibleRange.endCol h
  simp only [visibleRange, initial, defaultGrid, defaultConfig, viewport800x600] at h2
  norm_num at h2

/-- C6 (amended): for the 1000 x 1000 grid with 80 x 24 cells, an 800 x 600
viewport and `scrollX = scrollY = 0`, `render` computes startRow = 0,
endRow = 25, startCol = 0, endCol = 10. -/
theorem visibleRange_scenario (s : Grid) (hx : s.scrollX = 0) (hy : s.scrollY = 0) :
    visibleRange defaultConfig viewport800x600 s
      = { startRow := 0, endRow := 25, startCol := 0, endCol := 10 } := by
  simp only [visibleRange, hx, hy, defaultConfig, viewport800x600]
  norm_num

theorem visibleRange_scenario_witness :
    defaultGrid.scrollX = 0 ∧
    defaultGrid.scrollY = 0 ∧
    visibleRange defaultConfig viewport800x600
        defaultGrid
      = { startRow := 0, endRow := 25, startCol := 0, endCol := 10 } :=
  ⟨rfl, rfl, visibleRange_scenario _ rfl rfl⟩

/-! ## Coordinate round trip -/

/-- C4 (as stated, refuted): with one-pixel cells the point one pixel inside
the top-left corner of cell (0, 0) is hit-tested to cell (1, 1). -/
theorem roundTrip_fails_unit_cells :
    ¬ (screenToCell unitCellConfig defaultGrid
          ((cellToScreen unitCellConfig defaultGrid 0 0).1 + 1)
          ((cellToScreen unitCellConfig defaultGrid 0 0).2 + 1) = (0, 0)) := by
  simp only [screenToCell, cellToScreen, unitCellConfig, initial, defaultGrid]
  norm_num

theorem floor_cell_offset (k : Int) (w sc : ℚ) (hw : 1 < w) :
    ⌊((k : ℚ) * w - sc + 1 + sc) / w⌋ = k := by
  have hw0 : 0 < w := lt_trans zero_lt_one hw
  rw [Int.floor_eq_iff]
  constructor
  · rw [le_div_iff₀ hw0]; linarith
  · rw [div_lt_iff₀ hw0]; linarith

/-- C4 (amended): when the cell width and height exceed one pixel, for every
(row, col) and every scroll offset, hit-testing the point one pixel inside the
cell's on-screen top-left corner gives back (row, col). -/
theorem screenToCell_cellToScreen (cfg : Config) (s : Grid) (row col : Int)
    (hw : 1 < cfg.cellWidth) (hh : 1 < cfg.cellHeight) :
    screenToCell cfg s ((cellToScreen cfg s row col).1 + 1) ((cellToScreen cfg s row col).2 + 1)
      = (row, col) := by
  simp only [screenToCell, cellToScreen]
  rw [floor_cell_offset row _ _ hh, floor_cell_offset col _ _ hw]

theorem screenToCell_cellToScreen_witness :
    (1 : ℚ) < defaultConfig.cellWidth ∧ (1 : ℚ) < defaultConfig.cellHeight ∧
    screenToCell defaultConfig (wheel defaultConfig viewport800x600 defaultGrid 130 50)
        ((cellToScreen defaultConfig
            (wheel defaultConfig viewport800x600 defaultGrid 130 50) 7 3).1 + 1)
        ((cellToScreen defaultConfig
            (wheel defaultConfig viewport800x600 defaultGrid 130 50) 7 3).2 + 1)
      = (7, 3) :=
  ⟨by decide, by decide, screenToCell_cellToScreen defaultConfig _ 7 3 (by decide) (by decide)⟩

/-! ## `ensureCellVisible` -/

/-- C2 (as stated, refuted): in a viewport 50 pixels wide, `ensureCellVisible(0, 0)`
from scroll (0, 0) moves `scrollX` to 30 and the 80-pixel cell does not lie
within the viewport. -/
theorem ensureCellVisible_narrow_viewport :
    (0 : Int) < defaultConfig.totalRows ∧ (0 : Int) < defaultConfig.totalCols ∧
    (ensureCellVisible defaultConfig viewport50x600 defaultGrid 0 0).scrollX = 30 ∧
    ¬ CellFullyVisible defaultConfig viewport50x600
        (ensureCellVisible defaultConfig viewport50x600 defaultGrid 0 0) 0 0 := by
  refine ⟨by decide, by decide, ?_, ?_⟩
  · simp only [ensureCellVisible, initial, defaultGrid, defaultConfig, viewport50x600]
    norm_num
  · simp only [CellFullyVisible, ensureCellVisible, initial, defaultGrid, defaultConfig, viewport50x600]
    norm_num

/-- In exact arithmetic: when the viewport is at least one cell wide and one
cell high, after `ensureCellVisible(row, col)` the cell's full rectangle lies
within the viewport. -/
theorem ensureCellVisible_fully_visible_exact (cfg : Config) (vp : Viewport) (s : Grid)
    (row col : Int) (hw : cfg.cellWidth ≤ vp.width) (hh : cfg.cellHeight ≤ vp.height) :
    CellFullyVisible cfg vp (ensureCellVisible cfg vp s row col) row col := by
  simp only [CellFullyVisible, ensureCellVisible]
  refine ⟨?_, ?_, ?_, ?_⟩ <;> split_ifs <;> linarith

theorem floor_mul_div_le (k : Int) (w sc : ℚ) (hw : 0 < w) (h : sc ≤ (k : ℚ) * w) :
    ⌊sc / w⌋ ≤ k := by
  have h1 : sc / w ≤ (k : ℚ) := by rw [div_le_iff₀ hw]; exact h
  exact Int.cast_le.mp (le_trans (Int.floor_le _) h1)

theorem lt_ceil_div (k : Int) (w sc : ℚ) (hw : 0 < w) (h : (k : ℚ) * w < sc) :
    k < ⌈sc / w⌉ := by
  rw [Int.lt_ceil, lt_div_iff₀ hw]
  exact h

/-- Column part of C3 for one axis: with offset `sc` as left by
`ensureCellVisible`, `floor(sc / w) <= k < ceil((sc + v) / w)`. -/
theorem axis_contains (k : Int) (w v sc : ℚ) (hw : 0 < w) (hv : 0 < v) :
    ⌊(if (k : ℚ) * w < sc then (k : ℚ) * w
        else if (k : ℚ) * w + w > sc + v then (k : ℚ) * w + w - v else sc) / w⌋ ≤ k ∧
    k < ⌈((if (k : ℚ) * w < sc then (k : ℚ) * w
        else if (k : ℚ) * w + w > sc + v then (k : ℚ) * w + w - v else sc) + v) / w⌉ := by
  split_ifs with h1 h2
  · exact ⟨floor_mul_div_le k w _ hw (le_refl _), lt_ceil_div k w _ hw (by linarith)⟩
  · constructor
    · by_contra hc
      have h3 : k + 1 ≤ ⌊((k : ℚ) * w + w - v) / w⌋ := by omega
      rw [Int.le_floor, le_div_iff₀ hw] at h3
      push_cast at h3
      linarith
    · exact lt_ceil_div k w _ hw (by linarith)
  · exact ⟨floor_mul_div_le k w _ hw (by linarith), lt_ceil_div k w _ hw (by linarith)⟩

/-- C3: for every in-grid cell (r, c), positive cell width/height and positive
viewport width/height, after `ensureCellVisible(r, c)` the visible range
computed by `render` contains the cell: startRow <= r < endRow and
startCol <= c < endCol (the lower bounds 0 <= r and 0 <= c are not needed). -/
theorem ensureCellVisible_in_visibleRange (cfg : Config) (vp : Viewport) (s : Grid)
    (r c : Int) (hr : r < (cfg.totalRows : Int))
    (hc : c < (cfg.totalCols : Int)) (hw : 0 < cfg.cellWidth) (hh : 0 < cfg.cellHeight)
    (hvw : 0 < vp.width) (hvh : 0 < vp.height) :
    (visibleRange cfg vp (ensureCellVisible cfg vp s r c)).startRow ≤ r ∧
    r < (visibleRange cfg vp (ensureCellVisible cfg vp s r c)).endRow ∧
    (visibleRange cfg vp (ensureCellVisible cfg vp s r c)).startCol ≤ c ∧
    c < (visibleRange cfg vp (ensureCellVisible cfg vp s r c)).endCol := by
  have hrow := axis_contains r cfg.cellHeight vp.height s.scrollY hh hvh
  have hcol := axis_contains c cfg.cellWidth vp.width s.scrollX hw hvw
  simp only [visibleRange, ensureCellVisible]
  exact ⟨hrow.1, lt_min hr hrow.2, hcol.1, lt_min hc hcol.2⟩

theorem ensureCellVisible_in_visibleRange_witness :
    (visibleRange defaultConfig viewport800x600
        (ensureCellVisible defaultConfig viewport800x600 defaultGrid 40 12)).startRow ≤ 40 ∧
    (40 : Int) < (visibleRange defaultConfig viewport800x600
        (ensureCellVisible defaultConfig viewport800x600 defaultGrid 40 12)).endRow ∧
    (visibleRange defaultConfig viewport800x600
        (ensureCellVisible defaultConfig viewport800x600 defaultGrid 40 12)).startCol ≤ 12 ∧
    (12 : Int) < (visibleRange defaultConfig viewport800x600
        (ensureCellVisible defaultConfig viewport800x600 defaultGrid 40 12)).endCol :=
  ensureCellVisible_in_visibleRange defaultConfig viewport800x600 defaultGrid 40 12
    (by decide) (by decide) (by decide) (by decide) (by decide) (by decide)

/-! ## Typed arrays and buffer writes -/

theorem taSet_natCast {α : Type} (a : List α) (n : Nat) (v : α) :
    taSet a (n : Int) v = a.set n v := by
  simp [taSet]

theorem taGet_natCast {α : Type} (a : List α) (n : Nat) :
    taGet a (n : Int) = a.get? n := by
  simp [taGet]

theorem taSet_length {α : Type} (a : List α) (idx : Int) (v : α) :
    (taSet a idx v).length = a.length := by
  unfold taSet
  split_ifs <;> simp

theorem overwrite_singleton {α : Type} (buf : List α) (k : Nat) (v : α) :
    overwrite buf k [v] = buf.set k v := by
  induction buf generalizing k with
  | nil => simp [overwrite]
  | cons b bs ih =>
    cases k with
    | zero => cases bs <;> simp [overwrite]
    | succ k => simp [overwrite, ih]

theorem overwrite_whole {α : Type} (buf data : List α) (h : data.length = buf.length) :
    overwrite buf 0 data = data := by
  induction buf generalizing data with
  | nil =>
    cases data with
    | nil => simp [overwrite]
    | cons d ds => simp at h
  | cons b bs ih =>
    cases data with
    | nil => simp at h
    | cons d ds =>
      simp only [List.length_cons, Nat.add_right_cancel_iff] at h
      simp [overwrite, ih ds h]

/-- A one-element write at byte offset `idx * 4` replaces element `idx` and
nothing else (and does nothing when `idx` is outside the buffer). -/
theorem writeBuffer_one {α : Type} (buf : List α) (idx : Nat) (v : α) :
    writeBuffer buf (idx * 4) [v] = buf.set idx v := by
  unfold writeBuffer
  have h1 : idx * 4 % 4 = 0 := Nat.mul_mod_left idx 4
  have h2 : idx * 4 / 4 = idx := Nat.mul_div_cancel idx (by decide)
  rw [h2]
  by_cases h : idx + 1 ≤ buf.length
  · rw [if_pos ⟨h1, by simpa using h⟩, overwrite_singleton]
  · rw [if_neg (fun hc => h (by simpa using hc.2))]
    exact (List.set_eq_of_length_le (by omega)).symm

theorem writeBuffer_whole {α : Type} (buf data : List α) (h : data.length = buf.length) :
    writeBuffer buf 0 data = data := by
  unfold writeBuffer
  rw [if_pos ⟨by decide, by simp [h]⟩]
  exact overwrite_whole buf data h

theorem applyWrite_lengths (s : Grid) (w : CellWrite) :
    (applyWrite s w).cellData.length = s.cellData.length ∧
    (applyWrite s w).cellColors.length = s.cellColors.length ∧
    (applyWrite s w).cellDataBuffer = s.cellDataBuffer ∧
    (applyWrite s w).cellColorBuffer = s.cellColorBuffer := by
  cases w <;> simp [applyWrite, taSet_length]

theorem foldl_applyWrite_lengths (ws : List CellWrite) (s : Grid) :
    (ws.foldl applyWrite s).cellData.length = s.cellData.length ∧
    (ws.foldl applyWrite s).cellColors.length = s.cellColors.length ∧
    (ws.foldl applyWrite s).cellDataBuffer = s.cellDataBuffer ∧
    (ws.foldl applyWrite s).cellColorBuffer = s.cellColorBuffer := by
  induction ws generalizing s with
  | nil => simp
  | cons w ws ih =>
    obtain ⟨h1, h2, h3, h4⟩ := applyWrite_lengths s w
    obtain ⟨k1, k2, k3, k4⟩ := ih (applyWrite s w)
    exact ⟨k1.trans h1, k2.trans h2, k3.trans h3, k4.trans h4⟩

theorem updateCellData_synced (ds : Option (Grid → List CellWrite)) (s : Grid)
    (h : MirrorsSynced s) : MirrorsSynced (updateCellData ds s) := by
  cases ds with
  | none => exact h
  | some f =>
    obtain ⟨k1, k2, k3, k4⟩ := foldl_applyWrite_lengths (f s) s
    simp only [updateCellData, MirrorsSynced, uploadGPU]
    constructor
    · apply writeBuffer_whole
      rw [k1, k3, h.1]
    · apply writeBuffer_whole
      rw [k2, k4, h.2]

theorem closeEditor_fields (s : Grid) (ed : Editor) :
    (closeEditor s ed).cellData = s.cellData ∧
    (closeEditor s ed).cellColors = s.cellColors ∧
    (closeEditor s ed).cellDataBuffer = s.cellDataBuffer ∧
    (closeEditor s ed).cellColorBuffer = s.cellColorBuffer ∧
    (closeEditor s ed).changedLog = s.changedLog ∧
    (closeEditor s ed).selectedRow = s.selectedRow ∧
    (closeEditor s ed).selectedCol = s.selectedCol ∧
    (closeEditor s ed).scrollX = s.scrollX ∧
    (closeEditor s ed).scrollY = s.scrollY := by
  unfold closeEditor
  split_ifs <;> simp

theorem commitEdit_buffers (cfg : Config) (s : Grid) (idx : Nat) (value : ℚ) :
    (commitEdit cfg s idx value).cellData = s.cellData.set idx value ∧
    (commitEdit cfg s idx value).cellDataBuffer = s.cellDataBuffer.set idx value ∧
    ∃ tag x, (commitEdit cfg s idx value).cellColors = s.cellColors.set idx tag ∧
      (commitEdit cfg s idx value).cellColorBuffer = s.cellColorBuffer.set idx x ∧
      (idx < s.cellColors.length → x = tag) := by
  refine ⟨by simp [commitEdit, taSet_natCast], by simp [commitEdit, writeBuffer_one], ?_⟩
  simp only [commitEdit, taSet_natCast, taGet_natCast, writeBuffer_one]
  refine ⟨_, _, rfl, rfl, ?_⟩
  intro h
  simp [List.get?_eq_getElem?, List.getElem?_set, h]

theorem commitEdit_synced (cfg : Config) (s : Grid) (idx : Nat) (value : ℚ)
    (h : MirrorsSynced s) : MirrorsSynced (commitEdit cfg s idx value) := by
  obtain ⟨h1, h2, tag, x, h3, h4, h5⟩ := commitEdit_buffers cfg s idx value
  refine ⟨by rw [h1, h2, h.1], ?_⟩
  rw [h3, h4, h.2]
  by_cases hi : idx < s.cellColors.length
  · rw [h5 hi]
  · rw [List.set_eq_of_length_le (by omega), List.set_eq_of_length_le (by omega)]

theorem finishEditing_idle (cfg : Config) (parseFloat : String → Option ℚ) (s : Grid)
    (save : Bool) (h : s.isEditing = false ∨ s.editor = none) :
    finishEditing cfg parseFloat s save = s := by
  unfold finishEditing
  rcases h with h | h
  · rw [if_pos h]
  · rw [h]; split_ifs <;> rfl

theorem finishEditing_abandon (cfg : Config) (parseFloat : String → Option ℚ) (s : Grid)
    (save : Bool) (ed : Editor) (h1 : s.isEditing = true) (he : s.editor = some ed)
    (hab : save = false ∨ parseFloat ed.value = none) :
    finishEditing cfg parseFloat s save = closeEditor s ed := by
  unfold finishEditing
  rcases hab with hs | hp
  · simp [h1, he, hs]
  · cases save <;> simp [h1, he, hp]

theorem finishEditing_commit (cfg : Config) (parseFloat : String → Option ℚ) (s : Grid)
    (ed : Editor) (v : ℚ) (h1 : s.isEditing = true) (he : s.editor = some ed)
    (hp : parseFloat ed.value = some v) :
    finishEditing cfg parseFloat s true =
      if cellIndex cfg s.selectedRow s.selectedCol < 0 then s
      else closeEditor (commitEdit cfg s (cellIndex cfg s.selectedRow s.selectedCol).toNat v) ed := by
  unfold finishEditing
  simp [h1, he, hp]

theorem closeEditor_synced (s : Grid) (ed : Editor) (h : MirrorsSynced s) :
    MirrorsSynced (closeEditor s ed) := by
  obtain ⟨k1, k2, k3, k4, _⟩ := closeEditor_fields s ed
  exact ⟨by rw [k3, k1]; exact h.1, by rw [k4, k2]; exact h.2⟩

theorem finishEditing_synced (cfg : Config) (parseFloat : String → Option ℚ) (s : Grid)
    (save : Bool) (h : MirrorsSynced s) :
    MirrorsSynced (finishEditing cfg parseFloat s save) := by
  cases h1 : s.isEditing with
  | false => rw [finishEditing_idle cfg parseFloat s save (Or.inl h1)]; exact h
  | true =>
    cases he : s.editor with
    | none => rw [finishEditing_idle cfg parseFloat s save (Or.inr he)]; exact h
    | some ed =>
      cases save with
      | false =>
        rw [finishEditing_abandon cfg parseFloat s false ed h1 he (Or.inl rfl)]
        exact closeEditor_synced s ed h
      | true =>
        cases hp : parseFloat ed.value with
        | none =>
          rw [finishEditing_abandon cfg parseFloat s true ed h1 he (Or.inr hp)]
          exact closeEditor_synced s ed h
        | some v =>
          rw [finishEditing_commit cfg parseFloat s ed v h1 he hp]
          split_ifs
          · exact h
          · exact closeEditor_synced _ ed (commitEdit_synced cfg s _ v h)

/-! ## GPU mirrors -/

/-- C10: if both GPU buffers equal `cellData` and `cellColors`, then they do so
again after `finishEditing` (in particular after a committed edit, whose two
writes replace only element `idx = selectedRow * totalCols + selectedCol` of
each buffer, at byte offset `idx * 4`) and after `updateCellData` (data-source
callback followed by the upload of both arrays). -/
theorem gpu_mirrors_preserved (cfg : Config) (parseFloat : String → Option ℚ) (s : Grid)
    (hsync : MirrorsSynced s) :
    (∀ save, MirrorsSynced (finishEditing cfg parseFloat s save)) ∧
    (∀ dataSource, MirrorsSynced (updateCellData dataSource s)) ∧
    (∀ ed v, s.isEditing = true → s.editor = some ed → parseFloat ed.value = some v →
      0 ≤ cellIndex cfg s.selectedRow s.selectedCol →
      ∃ tag,
        (finishEditing cfg parseFloat s true).cellDataBuffer
          = s.cellDataBuffer.set (cellIndex cfg s.selectedRow s.selectedCol).toNat v ∧
        (finishEditing cfg parseFloat s true).cellColorBuffer
          = s.cellColorBuffer.set (cellIndex cfg s.selectedRow s.selectedCol).toNat tag) := by
  refine ⟨fun save => finishEditing_synced cfg parseFloat s save hsync,
    fun ds => updateCellData_synced ds s hsync, ?_⟩
  intro ed v h1 he hp hidx
  rw [finishEditing_commit cfg parseFloat s ed v h1 he hp, if_neg (not_lt.mpr hidx)]
  obtain ⟨_, _, k3, k4, _⟩ :=
    closeEditor_fields (commitEdit cfg s (cellIndex cfg s.selectedRow s.selectedCol).toNat v) ed
  obtain ⟨_, h2, tag, x, _, h4, _⟩ :=
    commitEdit_buffers cfg s (cellIndex cfg s.selectedRow s.selectedCol).toNat v
  exact ⟨x, by rw [k3, h2], by rw [k4, h4]⟩

theorem gpu_mirrors_preserved_witness :
    MirrorsSynced (tenGridEditing "150.5") ∧
    MirrorsSynced (finishEditing tenConfig parseFloatDecimal (tenGridEditing "150.5") true) ∧
    MirrorsSynced
      (updateCellData (some fun _ => [CellWrite.data 3 7, CellWrite.color 3 colorDown])
        (tenGridEditing "150.5")) :=
  ⟨⟨rfl, rfl⟩,
    (gpu_mirrors_preserved tenConfig parseFloatDecimal (tenGridEditing "150.5") ⟨rfl, rfl⟩).1 true,
    (gpu_mirrors_preserved tenConfig parseFloatDecimal (tenGridEditing "150.5") ⟨rfl, rfl⟩).2.1 _⟩

/-! ## Committing and abandoning an edit -/

theorem cellIndex_bounds (cfg : Config) (r c : Int) (h : InGrid cfg r c) :
    0 ≤ cellIndex cfg r c ∧
    (cellIndex cfg r c).toNat < cfg.totalRows * cfg.totalCols := by
  obtain ⟨hr0, hr, hc0, hc⟩ := h
  have h0 : 0 ≤ cellIndex cfg r c := by
    unfold cellIndex
    have := mul_nonneg hr0 (Int.ofNat_nonneg cfg.totalCols)
    omega
  refine ⟨h0, ?_⟩
  have h1 : cellIndex cfg r c < (cfg.totalRows : Int) * (cfg.totalCols : Int) := by
    unfold cellIndex
    have h2 : (r + 1) * (cfg.totalCols : Int) ≤ (cfg.totalRows : Int) * (cfg.totalCols : Int) :=
      mul_le_mul_of_nonneg_right (by omega) (Int.ofNat_nonneg _)
    have h3 : (r + 1) * (cfg.totalCols : Int) = r * (cfg.totalCols : Int) + cfg.totalCols := by
      ring
    omega
  have h4 : ((cellIndex cfg r c).toNat : Int) = cellIndex cfg r c := Int.toNat_of_nonneg h0
  have h5 : ((cellIndex cfg r c).toNat : Int) < ((cfg.totalRows * cfg.totalCols : Nat) : Int) := by
    rw [h4]; push_cast; exact h1
  exact Int.ofNat_lt.mp h5

theorem commitEdit_colors (cfg : Config) (s : Grid) (idx : Nat) (v old : ℚ)
    (hold : taGet s.cellData (idx : Int) = some old) :
    (commitEdit cfg s idx v).cellColors
      = s.cellColors.set idx (if v - old > 0 then colorUp else colorDown) := by
  simp only [commitEdit, hold, taSet_natCast]

/-- C7: in every editing state on an in-grid cell (r, c) with stored previous
value `old`, committing (`finishEditing(true)`) a draft that parses to a number
`v` sets the colour tag at index `r * totalCols + c` to the increase tag
`0xFF00AA00` when `v > old` and to the decrease tag `0xFFAA0000` when
`v <= old`. -/
theorem commit_sets_color_tag (cfg : Config) (parseFloat : String → Option ℚ) (s : Grid)
    (r c : Int) (ed : Editor) (old v : ℚ) (hE : EditingOn cfg s r c ed)
    (hS : StoreSized cfg s) (hold : taGet s.cellData (cellIndex cfg r c) = some old)
    (hp : parseFloat ed.value = some v) :
    (v > old → taGet (finishEditing cfg parseFloat s true).cellColors (cellIndex cfg r c)
      = some 0xFF00AA00) ∧
    (v ≤ old → taGet (finishEditing cfg parseFloat s true).cellColors (cellIndex cfg r c)
      = some 0xFFAA0000) := by
  obtain ⟨h1, he, _, hr, hc, hin⟩ := hE
  obtain ⟨hidx, hlt⟩ := cellIndex_bounds cfg r c hin
  have hcast : (((cellIndex cfg r c).toNat : Nat) : Int) = cellIndex cfg r c :=
    Int.toNat_of_nonneg hidx
  have key : (finishEditing cfg parseFloat s true).cellColors
      = s.cellColors.set (cellIndex cfg r c).toNat (if v - old > 0 then colorUp else colorDown) := by
    rw [finishEditing_commit cfg parseFloat s ed v h1 he hp, hr, hc, if_neg (not_lt.mpr hidx),
      (closeEditor_fields _ ed).2.1]
    exact commitEdit_colors cfg s _ v old (by rw [hcast]; exact hold)
  have hget : taGet (finishEditing cfg parseFloat s true).cellColors (cellIndex cfg r c)
      = some (if v - old > 0 then colorUp else colorDown) := by
    rw [key, ← hcast, taGet_natCast, hcast, List.get?_eq_getElem?, List.getElem?_set_self]
    rw [hS.2]; exact hlt
  constructor
  · intro hv
    rw [hget, if_pos (by linarith)]; rfl
  · intro hv
    rw [hget, if_neg (by linarith)]; rfl

theorem commit_sets_color_tag_witness :
    taGet (finishEditing tenConfig parseFloatDecimal (tenGridEditing "150.5") true).cellColors
      (cellIndex tenConfig 5 5) = some 0xFF00AA00 :=
  (commit_sets_color_tag tenConfig parseFloatDecimal (tenGridEditing "150.5") 5 5
    { value := "150.5", attached := true } 100 (301 / 2)
    ⟨rfl, rfl, rfl, rfl, rfl, by decide⟩ ⟨rfl, rfl⟩ (by decide)
    (by
      simp [parseFloatDecimal, unsignedDecimal, exponentValue, digitsValue, Char.isWhitespace,
        Char.isDigit]
      norm_num)).1 (by norm_num)

/-- C8: in every editing state on a cell (r, c), `finishEditing(false)` and
`finishEditing(true)` with a draft whose numeric parse fails leave every entry
of `cellData` and `cellColors` (and of the two GPU buffers) unchanged, do not
invoke `onChanged`, keep the selection at (r, c) and leave `isEditing = false`. -/
theorem abandoned_edit_store_untouched (cfg : Config) (parseFloat : String → Option ℚ)
    (s : Grid) (r c : Int) (ed : Editor) (save : Bool) (hE : EditingOn cfg s r c ed)
    (hab : save = false ∨ parseFloat ed.value = none) :
    (finishEditing cfg parseFloat s save).cellData = s.cellData ∧
    (finishEditing cfg parseFloat s save).cellColors = s.cellColors ∧
    (finishEditing cfg parseFloat s save).cellDataBuffer = s.cellDataBuffer ∧
    (finishEditing cfg parseFloat s save).cellColorBuffer = s.cellColorBuffer ∧
    (finishEditing cfg parseFloat s save).changedLog = s.changedLog ∧
    (finishEditing cfg parseFloat s save).selectedRow = r ∧
    (finishEditing cfg parseFloat s save).selectedCol = c ∧
    (finishEditing cfg parseFloat s save).isEditing = false := by
  obtain ⟨h1, he, hatt, hr, hc, _⟩ := hE
  rw [finishEditing_abandon cfg parseFloat s save ed h1 he hab]
  obtain ⟨k1, k2, k3, k4, k5, k6, k7, _⟩ := closeEditor_fields s ed
  exact ⟨k1, k2, k3, k4, k5, k6.trans hr, k7.trans hc, by simp [closeEditor, hatt]⟩

theorem abandoned_edit_store_untouched_witness :
    parseFloatDecimal "abc" = none ∧
    (finishEditing tenConfig parseFloatDecimal (tenGridEditing "abc") true).cellData
      = (tenGridEditing "abc").cellData ∧
    (finishEditing tenConfig parseFloatDecimal (tenGridEditing "abc") true).changedLog = [] ∧
    (finishEditing tenConfig parseFloatDecimal (tenGridEditing "abc") true).isEditing = false :=
  have h := abandoned_edit_store_untouched tenConfig parseFloatDecimal (tenGridEditing "abc")
    5 5 { value := "abc", attached := true } true ⟨rfl, rfl, rfl, rfl, rfl, by decide⟩
    (Or.inr (by decide))
  ⟨by decide, h.1, h.2.2.2.2.1, h.2.2.2.2.2.2.2⟩

/-! ## Arrow-key navigation -/

/-- Arrow keys as the handler computes them: in a non-editing state with an
in-grid cell (r, c) selected, each arrow key either moves the selection to the
neighbouring cell in its direction, when that cell is inside the grid, or else
leaves the selection where it is and changes only the scroll offset of its
axis, to `max(0, s - 200)` for Up and Left and to
`min(totalExtent - viewportExtent, s + 200)`, with no lower bound, for Down and
Right. -/
theorem arrow_navigation (cfg : Config) (vp : Viewport) (parseFloat : String → Option ℚ)
    (s : Grid) (r c : Int) (hne : s.isEditing = false) (hr : s.selectedRow = r)
    (hc : s.selectedCol = c) (hin : InGrid cfg r c) :
    (InGrid cfg (r - 1) c →
      (keydown cfg vp parseFloat s Key.ArrowUp).selectedRow = r - 1 ∧
      (keydown cfg vp parseFloat s Key.ArrowUp).selectedCol = c) ∧
    (¬ InGrid cfg (r - 1) c →
      (keydown cfg vp parseFloat s Key.ArrowUp).selectedRow = r ∧
      (keydown cfg vp parseFloat s Key.ArrowUp).selectedCol = c ∧
      (keydown cfg vp parseFloat s Key.ArrowUp).scrollX = s.scrollX ∧
      (keydown cfg vp parseFloat s Key.ArrowUp).scrollY = max 0 (s.scrollY - 200)) ∧
    (InGrid cfg (r + 1) c →
      (keydown cfg vp parseFloat s Key.ArrowDown).selectedRow = r + 1 ∧
      (keydown cfg vp parseFloat s Key.ArrowDown).selectedCol = c) ∧
    (¬ InGrid cfg (r + 1) c →
      (keydown cfg vp parseFloat s Key.ArrowDown).selectedRow = r ∧
      (keydown cfg vp parseFloat s Key.ArrowDown).selectedCol = c ∧
      (keydown cfg vp parseFloat s Key.ArrowDown).scrollX = s.scrollX ∧
      (keydown cfg vp parseFloat s Key.ArrowDown).scrollY
        = min ((cfg.totalRows : ℚ) * cfg.cellHeight - vp.height) (s.scrollY + 200)) ∧
    (InGrid cfg r (c - 1) →
      (keydown cfg vp parseFloat s Key.ArrowLeft).selectedRow = r ∧
      (keydown cfg vp parseFloat s Key.ArrowLeft).selectedCol = c - 1) ∧
    (¬ InGrid cfg r (c - 1) →
      (keydown cfg vp parseFloat s Key.ArrowLeft).selectedRow = r ∧
      (keydown cfg vp parseFloat s Key.ArrowLeft).selectedCol = c ∧
      (keydown cfg vp parseFloat s Key.ArrowLeft).scrollY = s.scrollY ∧
      (keydown cfg vp parseFloat s Key.ArrowLeft).scrollX = max 0 (s.scrollX - 200)) ∧
    (InGrid cfg r (c + 1) →
      (keydown cfg vp parseFloat s Key.ArrowRight).selectedRow = r ∧
      (keydown cfg vp parseFloat s Key.ArrowRight).selectedCol = c + 1) ∧
    (¬ InGrid cfg r (c + 1) →
      (keydown cfg vp parseFloat s Key.ArrowRight).selectedRow = r ∧
      (keydown cfg vp parseFloat s Key.ArrowRight).selectedCol = c ∧
      (keydown cfg vp parseFloat s Key.ArrowRight).scrollY = s.scrollY ∧
      (keydown cfg vp parseFloat s Key.ArrowRight).scrollX
        = min ((cfg.totalCols : ℚ) * cfg.cellWidth - vp.width) (s.scrollX + 200)) ∧
    (r = 0 → c = 0 →
      (keydown cfg vp parseFloat s Key.ArrowUp).selectedRow = 0 ∧
      (keydown cfg vp parseFloat s Key.ArrowUp).selectedCol = 0 ∧
      (keydown cfg vp parseFloat s Key.ArrowUp).scrollX = s.scrollX ∧
      (keydown cfg vp parseFloat s Key.ArrowUp).scrollY = max 0 (s.scrollY - 200)) := by
  subst hr
  subst hc
  obtain ⟨hr0, hrR, hc0, hcC⟩ := hin
  simp only [InGrid]
  refine ⟨?_, ?_, ?_, ?_, ?_, ?_, ?_, ?_, ?_⟩
  · rintro ⟨h1, -, -, -⟩
    have hpos : s.selectedRow > 0 := by omega
    simp [keydown, keydownIdle, hne, hpos, ensureCellVisible, selectCell]
  · intro h
    have hpos : ¬ s.selectedRow > 0 := by
      intro hp; apply h; exact ⟨by omega, by omega, hc0, hcC⟩
    simp [keydown, keydownIdle, hne, hpos, scrollSpeed]
  · rintro ⟨-, h1, -, -⟩
    have hcond : 0 ≤ s.selectedRow ∧ s.selectedRow < (cfg.totalRows : Int) - 1 :=
      ⟨by omega, by omega⟩
    simp [keydown, keydownIdle, hne, hcond, ensureCellVisible, selectCell]
  · intro h
    have hcond : ¬ (0 ≤ s.selectedRow ∧ s.selectedRow < (cfg.totalRows : Int) - 1) := by
      intro hp; apply h; exact ⟨by omega, by omega, hc0, hcC⟩
    simp [keydown, keydownIdle, hne, hcond, scrollSpeed]
  · rintro ⟨-, -, h1, -⟩
    have hpos : s.selectedCol > 0 := by omega
    simp [keydown, keydownIdle, hne, hpos, ensureCellVisible, selectCell]
  · intro h
    have hpos : ¬ s.selectedCol > 0 := by
      intro hp; apply h; exact ⟨hr0, hrR, by omega, by omega⟩
    simp [keydown, keydownIdle, hne, hpos, scrollSpeed]
  · rintro ⟨-, -, -, h1⟩
    have hcond : 0 ≤ s.selectedCol ∧ s.selectedCol < (cfg.totalCols : Int) - 1 :=
      ⟨by omega, by omega⟩
    simp [keydown, keydownIdle, hne, hcond, ensureCellVisible, selectCell]
  · intro h
    have hcond : ¬ (0 ≤ s.selectedCol ∧ s.selectedCol < (cfg.totalCols : Int) - 1) := by
      intro hp; apply h; exact ⟨hr0, hrR, by omega, by omega⟩
    simp [keydown, keydownIdle, hne, hcond, scrollSpeed]
  · intro hr1 hc1
    have hpos : ¬ s.selectedRow > 0 := by omega
    simp [keydown, keydownIdle, hne, hpos, scrollSpeed]
    omega

/-! ## Scroll range over runs -/

/-- C1 (failing run): on the 3 x 4 grid (320 x 72 pixels) in an 800 x 600
viewport the initial state is within the scroll range, and one ArrowDown press
stores `scrollY = min(72 - 600, 0 + 200) = -528`, outside
`[0, max(0, totalRows * cellHeight - viewportHeight)] = [0, 0]`. -/
theorem arrowDown_small_grid_leaves_scroll_range (parseFloat : String → Option ℚ) :
    ScrollInRange smallConfig viewport800x600 smallGrid ∧
    (scrollRun smallConfig viewport800x600 parseFloat smallGrid
      [ScrollInput.arrowDown]).scrollY = -528 ∧
    ¬ ScrollInRange smallConfig viewport800x600
      (scrollRun smallConfig viewport800x600 parseFloat smallGrid [ScrollInput.arrowDown]) := by
  have hy : (scrollRun smallConfig viewport800x600 parseFloat smallGrid
      [ScrollInput.arrowDown]).scrollY = -528 := by
    simp [scrollRun, scrollStep, keydown, keydownIdle, smallGrid, initial, smallConfig,
      viewport800x600, scrollSpeed]
    norm_num
  refine ⟨?_, hy, ?_⟩
  · simp [ScrollInRange, smallGrid, initial, smallConfig, viewport800x600]
  · intro h
    have h0 := h.2.2.1
    rw [hy] at h0
    norm_num at h0

theorem ensure_axis_inRange (k : Int) (n : Nat) (w v sc : ℚ) (hw : 0 ≤ w) (hk0 : 0 ≤ k)
    (hk : k < (n : Int)) (h0 : 0 ≤ sc) (h1 : sc ≤ max 0 ((n : ℚ) * w - v)) :
    0 ≤ (if (k : ℚ) * w < sc then (k : ℚ) * w
        else if (k : ℚ) * w + w > sc + v then (k : ℚ) * w + w - v else sc) ∧
    (if (k : ℚ) * w < sc then (k : ℚ) * w
        else if (k : ℚ) * w + w > sc + v then (k : ℚ) * w + w - v else sc)
      ≤ max 0 ((n : ℚ) * w - v) := by
  have hkq : (0 : ℚ) ≤ (k : ℚ) := by exact_mod_cast hk0
  have hkn : (k : ℚ) + 1 ≤ (n : ℚ) := by exact_mod_cast (Int.add_one_le_iff.mpr hk)
  have hkw : 0 ≤ (k : ℚ) * w := mul_nonneg hkq hw
  have hnw : ((k : ℚ) + 1) * w ≤ (n : ℚ) * w := mul_le_mul_of_nonneg_right hkn hw
  split_ifs with c1 c2
  · exact ⟨hkw, le_trans (le_of_lt c1) h1⟩
  · constructor
    · linarith
    · apply le_trans _ (le_max_right _ _)
      linarith
  · exact ⟨h0, h1⟩

theorem ensureCellVisible_inRange (cfg : Config) (vp : Viewport) (s : Grid) (row col : Int)
    (hw : 0 ≤ cfg.cellWidth) (hh : 0 ≤ cfg.cellHeight) (hin : InGrid cfg row col)
    (h : ScrollInRange cfg vp s) :
    ScrollInRange cfg vp (ensureCellVisible cfg vp s row col) := by
  obtain ⟨hr0, hrR, hc0, hcC⟩ := hin
  obtain ⟨x0, x1, y0, y1⟩ := h
  have hx := ensure_axis_inRange col cfg.totalCols cfg.cellWidth vp.width s.scrollX hw hc0 hcC x0 x1
  have hy := ensure_axis_inRange row cfg.totalRows cfg.cellHeight vp.height s.scrollY hh hr0 hrR
    y0 y1
  exact ⟨hx.1, hx.2, hy.1, hy.2⟩

theorem wheel_inRange (cfg : Config) (vp : Viewport) (s : Grid) (dx dy : ℚ) :
    ScrollInRange cfg vp (wheel cfg vp s dx dy) :=
  ⟨clampScroll_nonneg _ _, clampScroll_le _ _, clampScroll_nonneg _ _, clampScroll_le _ _⟩

theorem scrollUp_inRange (limit sc : ℚ) (h1 : sc ≤ max 0 limit) :
    0 ≤ max 0 (sc - scrollSpeed) ∧ max 0 (sc - scrollSpeed) ≤ max 0 limit := by
  refine ⟨le_max_left _ _, max_le (le_max_left _ _) ?_⟩
  have : sc - scrollSpeed ≤ sc := by unfold scrollSpeed; linarith
  exact le_trans this h1

theorem scrollDown_inRange (limit sc : ℚ) (hl : 0 ≤ limit) (h0 : 0 ≤ sc) :
    0 ≤ min limit (sc + scrollSpeed) ∧ min limit (sc + scrollSpeed) ≤ max 0 limit := by
  refine ⟨le_min hl ?_, le_trans (min_le_left _ _) (le_max_right _ _)⟩
  unfold scrollSpeed; linarith

theorem move_inRange (cfg : Config) (vp : Viewport) (s : Grid) (row col : Int)
    (hw : 0 ≤ cfg.cellWidth) (hh : 0 ≤ cfg.cellHeight) (hin : InGrid cfg row col)
    (h : ScrollInRange cfg vp s) :
    ScrollInRange cfg vp (ensureCellVisible cfg vp (selectCell s row col) row col) ∧
    SelectionValid cfg (ensureCellVisible cfg vp (selectCell s row col) row col) :=
  ⟨ensureCellVisible_inRange cfg vp (selectCell s row col) row col hw hh hin h, Or.inr hin⟩

theorem inGrid_of_valid_row (cfg : Config) (s : Grid) (hsel : SelectionValid cfg s)
    (h : 0 ≤ s.selectedRow) : InGrid cfg s.selectedRow s.selectedCol := by
  rcases hsel with ⟨h1, _⟩ | h1
  · omega
  · exact h1

theorem inGrid_of_valid_col (cfg : Config) (s : Grid) (hsel : SelectionValid cfg s)
    (h : 0 ≤ s.selectedCol) : InGrid cfg s.selectedRow s.selectedCol := by
  rcases hsel with ⟨_, h1⟩ | h1
  · omega
  · exact h1

/-- Arrow keys keep the scroll range and a valid selection when the grid is at
least as large as the viewport on both axes. -/
theorem keydownIdle_arrow_inRange (cfg : Config) (vp : Viewport) (s : Grid) (key : Key)
    (hkey : key = Key.ArrowUp ∨ key = Key.ArrowDown ∨ key = Key.ArrowLeft ∨ key = Key.ArrowRight)
    (hw : 0 ≤ cfg.cellWidth) (hh : 0 ≤ cfg.cellHeight)
    (hX : 0 ≤ (cfg.totalCols : ℚ) * cfg.cellWidth - vp.width)
    (hY : 0 ≤ (cfg.totalRows : ℚ) * cfg.cellHeight - vp.height)
    (hsel : SelectionValid cfg s) (h : ScrollInRange cfg vp s) :
    ScrollInRange cfg vp (keydownIdle cfg vp s key) ∧
    SelectionValid cfg (keydownIdle cfg vp s key) := by
  obtain ⟨x0, x1, y0, y1⟩ := h
  rcases hkey with rfl | rfl | rfl | rfl
  · simp only [keydownIdle]
    split_ifs with hc
    · have hin := inGrid_of_valid_row cfg s hsel (by omega)
      exact move_inRange cfg vp s _ _ hw hh ⟨by omega, by have := hin.2.1; omega, hin.2.2⟩
        ⟨x0, x1, y0, y1⟩
    · have hy := scrollUp_inRange _ s.scrollY y1
      exact ⟨⟨x0, x1, hy.1, hy.2⟩, hsel⟩
  · simp only [keydownIdle]
    split_ifs with hc
    · have hin := inGrid_of_valid_row cfg s hsel hc.1
      exact move_inRange cfg vp s _ _ hw hh ⟨by omega, by omega, hin.2.2⟩ ⟨x0, x1, y0, y1⟩
    · have hy := scrollDown_inRange _ s.scrollY hY y0
      exact ⟨⟨x0, x1, hy.1, hy.2⟩, hsel⟩
  · simp only [keydownIdle]
    split_ifs with hc
    · have hin := inGrid_of_valid_col cfg s hsel (by omega)
      exact move_inRange cfg vp s _ _ hw hh
        ⟨hin.1, hin.2.1, by omega, by have := hin.2.2.2; omega⟩ ⟨x0, x1, y0, y1⟩
    · have hx := scrollUp_inRange _ s.scrollX x1
      exact ⟨⟨hx.1, hx.2, y0, y1⟩, hsel⟩
  · simp only [keydownIdle]
    split_ifs with hc
    · have hin := inGrid_of_valid_col cfg s hsel hc.1
      exact move_inRange cfg vp s _ _ hw hh ⟨hin.1, hin.2.1, by omega, by omega⟩
        ⟨x0, x1, y0, y1⟩
    · have hx := scrollDown_inRange _ s.scrollX hX x0
      exact ⟨⟨hx.1, hx.2, y0, y1⟩, hsel⟩

theorem keydown_arrow_inRange (cfg : Config) (vp : Viewport)
    (parseFloat : String → Option ℚ) (s : Grid) (key : Key)
    (hkey : key = Key.ArrowUp ∨ key = Key.ArrowDown ∨ key = Key.ArrowLeft ∨ key = Key.ArrowRight)
    (hw : 0 ≤ cfg.cellWidth) (hh : 0 ≤ cfg.cellHeight)
    (hX : 0 ≤ (cfg.totalCols : ℚ) * cfg.cellWidth - vp.width)
    (hY : 0 ≤ (cfg.totalRows : ℚ) * cfg.cellHeight - vp.height)
    (hsel : SelectionValid cfg s) (h : ScrollInRange cfg vp s) :
    ScrollInRange cfg vp (keydown cfg vp parseFloat s key) ∧
    SelectionValid cfg (keydown cfg vp parseFloat s key) := by
  have hidle := keydownIdle_arrow_inRange cfg vp s key hkey hw hh hX hY hsel h
  unfold keydown
  split_ifs with h1 h2
  · exact ⟨h, hsel⟩
  · rcases hkey with rfl | rfl | rfl | rfl <;> exact ⟨h, hsel⟩
  · exact hidle

theorem scrollStep_inRange (cfg : Config) (vp : Viewport) (parseFloat : String → Option ℚ)
    (s : Grid) (i : ScrollInput) (hw : 0 ≤ cfg.cellWidth) (hh : 0 ≤ cfg.cellHeight)
    (hX : 0 ≤ (cfg.totalCols : ℚ) * cfg.cellWidth - vp.width)
    (hY : 0 ≤ (cfg.totalRows : ℚ) * cfg.cellHeight - vp.height)
    (hadm : i.admissible cfg) (hsel : SelectionValid cfg s) (h : ScrollInRange cfg vp s) :
    ScrollInRange cfg vp (scrollStep cfg vp parseFloat s i) ∧
    SelectionValid cfg (scrollStep cfg vp parseFloat s i) := by
  cases i with
  | wheel dx dy => exact ⟨wheel_inRange cfg vp s dx dy, hsel⟩
  | arrowUp =>
    exact keydown_arrow_inRange cfg vp parseFloat s _ (Or.inl rfl) hw hh hX hY hsel h
  | arrowDown =>
    exact keydown_arrow_inRange cfg vp parseFloat s _ (Or.inr (Or.inl rfl)) hw hh hX hY hsel h
  | arrowLeft =>
    exact keydown_arrow_inRange cfg vp parseFloat s _ (Or.inr (Or.inr (Or.inl rfl))) hw hh hX hY
      hsel h
  | arrowRight =>
    exact keydown_arrow_inRange cfg vp parseFloat s _ (Or.inr (Or.inr (Or.inr rfl))) hw hh hX hY
      hsel h
  | ensureVisible row col =>
    exact ⟨ensureCellVisible_inRange cfg vp s row col hw hh hadm h, hsel⟩

/-- Scroll-range invariant for grids at least as large as the viewport: from a
state within the scroll range and with a valid selection, every run of wheel
events, arrow keys and `ensureCellVisible` calls on in-grid cells stays within
`[0, totalExtent - viewportExtent]` on both axes. -/
theorem scrollRun_inRange_of_grid_covers_viewport (cfg : Config) (vp : Viewport)
    (parseFloat : String → Option ℚ) (inputs : List ScrollInput) (s : Grid)
    (hw : 0 ≤ cfg.cellWidth) (hh : 0 ≤ cfg.cellHeight)
    (hX : 0 ≤ (cfg.totalCols : ℚ) * cfg.cellWidth - vp.width)
    (hY : 0 ≤ (cfg.totalRows : ℚ) * cfg.cellHeight - vp.height)
    (hadm : ∀ i ∈ inputs, ScrollInput.admissible cfg i)
    (hsel : SelectionValid cfg s) (h : ScrollInRange cfg vp s) :
    ScrollInRange cfg vp (scrollRun cfg vp parseFloat s inputs) := by
  induction inputs generalizing s with
  | nil => exact h
  | cons i rest ih =>
    have hstep := scrollStep_inRange cfg vp parseFloat s i hw hh hX hY
      (hadm i (List.mem_cons_self i rest)) hsel h
    exact ih (scrollStep cfg vp parseFloat s i)
      (fun j hj => hadm j (List.mem_cons_of_mem i hj)) hstep.2 hstep.1

/-! ## Text loop of `render` -/

theorem loopRange_mem (lo hi k : Int) : k ∈ loopRange lo hi ↔ lo ≤ k ∧ k < hi := by
  simp only [loopRange, List.mem_map, List.mem_range]
  constructor
  · rintro ⟨n, hn, rfl⟩
    omega
  · rintro ⟨h1, h2⟩
    exact ⟨(k - lo).toNat, by omega, by omega⟩

/-- The list of visited cells is the double loop over the visible range. -/
theorem textLoopCells_mem (cfg : Config) (vp : Viewport) (s : Grid) (row col : Int) :
    (row, col) ∈ textLoopCells cfg vp s ↔
      (visibleRange cfg vp s).startRow ≤ row ∧ row < (visibleRange cfg vp s).endRow ∧
      (visibleRange cfg vp s).startCol ≤ col ∧ col < (visibleRange cfg vp s).endCol := by
  simp only [textLoopCells, List.mem_flatMap, List.mem_map, loopRange_mem, Prod.mk.injEq]
  constructor
  · rintro ⟨r, ⟨h1, h2⟩, c, ⟨h3, h4⟩, rfl, rfl⟩
    exact ⟨h1, h2, h3, h4⟩
  · rintro ⟨h1, h2, h3, h4⟩
    exact ⟨row, ⟨h1, h2⟩, col, ⟨h3, h4⟩, rfl, rfl⟩

theorem floor_div_nonneg (sc w : ℚ) (hs : 0 ≤ sc) (hw : 0 < w) : 0 ≤ ⌊sc / w⌋ :=
  Int.floor_nonneg.mpr (div_nonneg hs (le_of_lt hw))

theorem taGet_isSome_of_lt {α : Type} (a : List α) (idx : Int) (h0 : 0 ≤ idx)
    (h1 : idx.toNat < a.length) : ∃ v, taGet a idx = some v := by
  unfold taGet
  rw [if_neg (not_lt.mpr h0)]
  exact ⟨a.get ⟨idx.toNat, h1⟩, List.get?_eq_get h1⟩

/-- C13: for every state with `scrollX >= 0`, `scrollY >= 0` and positive cell
width and height, every (row, col) visited by the text loop of `render`
satisfies `0 <= row < totalRows` and `0 <= col < totalCols`, so the index
`row * totalCols + col` lies in `[0, totalRows * totalCols)` and, the arrays
having `cellCount` entries, both loads of the iteration are inside the arrays. -/
theorem render_text_loop_in_bounds (cfg : Config) (vp : Viewport) (s : Grid) (row col : Int)
    (hsx : 0 ≤ s.scrollX) (hsy : 0 ≤ s.scrollY) (hw : 0 < cfg.cellWidth)
    (hh : 0 < cfg.cellHeight) (hmem : (row, col) ∈ textLoopCells cfg vp s) :
    (0 ≤ row ∧ row < (cfg.totalRows : Int) ∧ 0 ≤ col ∧ col < (cfg.totalCols : Int)) ∧
    0 ≤ cellIndex cfg row col ∧
    cellIndex cfg row col < (cfg.totalRows : Int) * (cfg.totalCols : Int) ∧
    (StoreSized cfg s → ∃ v c, textLoopRead cfg s row col = (some v, some c)) := by
  obtain ⟨h1, h2, h3, h4⟩ := (textLoopCells_mem cfg vp s row col).mp hmem
  simp only [visibleRange] at h1 h2 h3 h4
  have hr0 : 0 ≤ row := le_trans (floor_div_nonneg _ _ hsy hh) h1
  have hc0 : 0 ≤ col := le_trans (floor_div_nonneg _ _ hsx hw) h3
  have hin : InGrid cfg row col :=
    ⟨hr0, lt_of_lt_of_le h2 (min_le_left _ _), hc0, lt_of_lt_of_le h4 (min_le_left _ _)⟩
  obtain ⟨hi0, hi1⟩ := cellIndex_bounds cfg row col hin
  refine ⟨hin, hi0, ?_, ?_⟩
  · have h5 : ((cellIndex cfg row col).toNat : Int) = cellIndex cfg row col :=
      Int.toNat_of_nonneg hi0
    have h6 : ((cellIndex cfg row col).toNat : Int)
        < ((cfg.totalRows * cfg.totalCols : Nat) : Int) := Int.ofNat_lt.mpr hi1
    rw [h5] at h6
    push_cast at h6
    exact h6
  · intro hS
    obtain ⟨v, hv⟩ := taGet_isSome_of_lt s.cellData _ hi0 (by rw [hS.1]; exact hi1)
    obtain ⟨c, hc⟩ := taGet_isSome_of_lt s.cellColors _ hi0 (by rw [hS.2]; exact hi1)
    exact ⟨v, c, by simp only [textLoopRead, hv, hc]⟩

theorem render_text_loop_in_bounds_witness :
    (0 ≤ (2 : Int) ∧ (2 : Int) < (smallConfig.totalRows : Int) ∧
      0 ≤ (3 : Int) ∧ (3 : Int) < (smallConfig.totalCols : Int)) ∧
    0 ≤ cellIndex smallConfig 2 3 ∧
    cellIndex smallConfig 2 3 < (smallConfig.totalRows : Int) * (smallConfig.totalCols : Int) ∧
    (StoreSized smallConfig smallGrid →
      ∃ v c, textLoopRead smallConfig smallGrid 2 3 = (some v, some c)) :=
  render_text_loop_in_bounds smallConfig viewport800x600 smallGrid 2 3 (le_refl 0) (le_refl 0)
    (by decide) (by decide)
    (by
      rw [textLoopCells_mem]
      simp only [visibleRange, smallGrid, initial, smallConfig, viewport800x600]
      norm_num)

/-! ## Selection validity over runs -/

theorem closeEditor_editing (s : Grid) (ed : Editor)
    (h : (closeEditor s ed).isEditing = true) : s.isEditing = true := by
  unfold closeEditor at h
  split_ifs at h
  exact h

theorem commitEdit_selection (cfg : Config) (s : Grid) (idx : Nat) (value : ℚ) :
    (commitEdit cfg s idx value).selectedRow = s.selectedRow ∧
    (commitEdit cfg s idx value).selectedCol = s.selectedCol ∧
    (commitEdit cfg s idx value).isEditing = s.isEditing :=
  ⟨rfl, rfl, rfl⟩

/-- Handler `finishEditing` never moves the selection and never enters edit mode. -/
theorem finishEditing_selection (cfg : Config) (parseFloat : String → Option ℚ) (s : Grid)
    (save : Bool) :
    (finishEditing cfg parseFloat s save).selectedRow = s.selectedRow ∧
    (finishEditing cfg parseFloat s save).selectedCol = s.selectedCol ∧
    ((finishEditing cfg parseFloat s save).isEditing = true → s.isEditing = true) := by
  cases h1 : s.isEditing with
  | false =>
    rw [finishEditing_idle cfg parseFloat s save (Or.inl h1)]
    exact ⟨rfl, rfl, fun h => by rw [h1] at h; exact h⟩
  | true =>
    refine ⟨?_, ?_, fun _ => rfl⟩
    all_goals
      cases he : s.editor with
      | none => rw [finishEditing_idle cfg parseFloat s save (Or.inr he)]
      | some ed =>
        cases save with
        | false =>
          rw [finishEditing_abandon cfg parseFloat s false ed h1 he (Or.inl rfl)]
          first
            | exact (closeEditor_fields s ed).2.2.2.2.2.1
            | exact (closeEditor_fields s ed).2.2.2.2.2.2.1
        | true =>
          cases hp : parseFloat ed.value with
          | none =>
            rw [finishEditing_abandon cfg parseFloat s true ed h1 he (Or.inr hp)]
            first
              | exact (closeEditor_fields s ed).2.2.2.2.2.1
              | exact (closeEditor_fields s ed).2.2.2.2.2.2.1
          | some v =>
            rw [finishEditing_commit cfg parseFloat s ed v h1 he hp]
            split_ifs
            · rfl
            · first
                | exact (closeEditor_fields _ ed).2.2.2.2.2.1
                | exact (closeEditor_fields _ ed).2.2.2.2.2.2.1

theorem finishEditing_invariant (cfg : Config) (parseFloat : String → Option ℚ) (s : Grid)
    (save : Bool) (h : SelectionInvariant cfg s) :
    SelectionInvariant cfg (finishEditing cfg parseFloat s save) := by
  obtain ⟨k1, k2, k3⟩ := finishEditing_selection cfg parseFloat s save
  unfold SelectionInvariant SelectionValid at *
  rw [k1, k2]
  exact ⟨h.1, fun he => h.2 (k3 he)⟩

theorem startEditing_selection (cfg : Config) (s : Grid) :
    (startEditing cfg s).selectedRow = s.selectedRow ∧
    (startEditing cfg s).selectedCol = s.selectedCol := by
  unfold startEditing
  split_ifs
  · exact ⟨rfl, rfl⟩
  · split <;> exact ⟨rfl, rfl⟩

/-- Entering edit mode behind the guard `selectedRow >= 0 && selectedCol >= 0`
(double-click, Enter, F2) keeps the invariant. -/
theorem guarded_startEditing_invariant (cfg : Config) (s : Grid)
    (h : SelectionInvariant cfg s) :
    SelectionInvariant cfg
      (if 0 ≤ s.selectedRow ∧ 0 ≤ s.selectedCol then startEditing cfg s else s) := by
  split_ifs with hg
  · obtain ⟨k1, k2⟩ := startEditing_selection cfg s
    have hin := inGrid_of_valid_row cfg s h.1 hg.1
    unfold SelectionInvariant SelectionValid
    rw [k1, k2]
    exact ⟨Or.inr hin, fun _ => hin⟩
  · exact h

theorem foldl_applyWrite_selection (ws : List CellWrite) (s : Grid) :
    (ws.foldl applyWrite s).selectedRow = s.selectedRow ∧
    (ws.foldl applyWrite s).selectedCol = s.selectedCol ∧
    (ws.foldl applyWrite s).isEditing = s.isEditing := by
  induction ws generalizing s with
  | nil => exact ⟨rfl, rfl, rfl⟩
  | cons w ws ih =>
    obtain ⟨k1, k2, k3⟩ := ih (applyWrite s w)
    cases w <;> exact ⟨k1, k2, k3⟩

theorem updateCellData_invariant (cfg : Config) (ds : Option (Grid → List CellWrite))
    (s : Grid) (h : SelectionInvariant cfg s) :
    SelectionInvariant cfg (updateCellData ds s) := by
  cases ds with
  | none => exact h
  | some f =>
    obtain ⟨k1, k2, k3⟩ := foldl_applyWrite_selection (f s) s
    unfold SelectionInvariant SelectionValid updateCellData uploadGPU
    simp only [k1, k2, k3]
    exact h

theorem move_invariant (cfg : Config) (vp : Viewport) (s : Grid) (row col : Int)
    (hin : InGrid cfg row col) :
    SelectionInvariant cfg (ensureCellVisible cfg vp (selectCell s row col) row col) :=
  ⟨Or.inr hin, fun _ => hin⟩

theorem scrollOnly_invariant (cfg : Config) (s : Grid) (sx sy : ℚ)
    (h : SelectionInvariant cfg s) :
    SelectionInvariant cfg { s with scrollX := sx, scrollY := sy } :=
  h

theorem keydownIdle_invariant (cfg : Config) (vp : Viewport) (s : Grid) (key : Key)
    (h : SelectionInvariant cfg s) :
    SelectionInvariant cfg (keydownIdle cfg vp s key) := by
  cases key with
  | ArrowUp =>
    simp only [keydownIdle]
    split_ifs with hc
    · have hin := inGrid_of_valid_row cfg s h.1 (by omega)
      exact move_invariant cfg vp s _ _ ⟨by omega, by have := hin.2.1; omega, hin.2.2⟩
    · exact scrollOnly_invariant cfg s _ _ h
  | ArrowDown =>
    simp only [keydownIdle]
    split_ifs with hc
    · have hin := inGrid_of_valid_row cfg s h.1 hc.1
      exact move_invariant cfg vp s _ _ ⟨by omega, by omega, hin.2.2⟩
    · exact scrollOnly_invariant cfg s _ _ h
  | ArrowLeft =>
    simp only [keydownIdle]
    split_ifs with hc
    · have hin := inGrid_of_valid_col cfg s h.1 (by omega)
      exact move_invariant cfg vp s _ _
        ⟨hin.1, hin.2.1, by omega, by have := hin.2.2.2; omega⟩
    · exact scrollOnly_invariant cfg s _ _ h
  | ArrowRight =>
    simp only [keydownIdle]
    split_ifs with hc
    · have hin := inGrid_of_valid_col cfg s h.1 hc.1
      exact move_invariant cfg vp s _ _ ⟨hin.1, hin.2.1, by omega, by omega⟩
    · exact scrollOnly_invariant cfg s _ _ h
  | Enter => exact guarded_startEditing_invariant cfg s h
  | F2 => exact guarded_startEditing_invariant cfg s h
  | Alt => exact h
  | Escape => exact h
  | other => exact h

theorem keydown_invariant (cfg : Config) (vp : Viewport) (parseFloat : String → Option ℚ)
    (s : Grid) (key : Key) (h : SelectionInvariant cfg s) :
    SelectionInvariant cfg (keydown cfg vp parseFloat s key) := by
  unfold keydown
  split_ifs with h1 h2
  · exact h
  · cases key with
    | Enter => exact finishEditing_invariant cfg parseFloat s true h
    | Escape => exact finishEditing_invariant cfg parseFloat s false h
    | ArrowUp => exact h
    | ArrowDown => exact h
    | ArrowLeft => exact h
    | ArrowRight => exact h
    | F2 => exact h
    | Alt => exact h
    | other => exact h
  · exact keydownIdle_invariant cfg vp s key h

theorem click_invariant (cfg : Config) (s : Grid) (px py : ℚ)
    (h : SelectionInvariant cfg s) : SelectionInvariant cfg (click cfg s px py) := by
  unfold click
  by_cases h1 : s.isEditing = true
  · rw [if_pos h1]; exact h
  · rw [if_neg h1]
    dsimp only
    split_ifs with h2
    · exact ⟨Or.inr h2, fun _ => h2⟩
    · exact h

theorem typeText_invariant (cfg : Config) (s : Grid) (text : String)
    (h : SelectionInvariant cfg s) : SelectionInvariant cfg (typeText s text) := by
  unfold typeText
  split
  · exact h
  · exact h

theorem step_invariant (cfg : Config) (vp : Viewport) (parseFloat : String → Option ℚ)
    (s : Grid) (e : Event) (h : SelectionInvariant cfg s) :
    SelectionInvariant cfg (step cfg vp parseFloat s e) := by
  cases e with
  | click px py => exact click_invariant cfg s px py h
  | dblclick => exact guarded_startEditing_invariant cfg s h
  | wheel dx dy => exact h
  | keydown key => exact keydown_invariant cfg vp parseFloat s key h
  | typeText text => exact typeText_invariant cfg s text h
  | finish save => exact finishEditing_invariant cfg parseFloat s save h
  | refresh ds => exact updateCellData_invariant cfg ds s h

theorem run_invariant (cfg : Config) (vp : Viewport) (parseFloat : String → Option ℚ)
    (events : List Event) (s : Grid) (h : SelectionInvariant cfg s) :
    SelectionInvariant cfg (run cfg vp parseFloat s events) := by
  induction events generalizing s with
  | nil => exact h
  | cons e rest ih => exact ih (step cfg vp parseFloat s e) (step_invariant cfg vp parseFloat s e h)

/-- C12: in every state reached from the initial state (`selectedRow =
selectedCol = -1`, `isEditing = false`) by clicks, double-clicks, wheel events,
key presses, typing, edit commits and cancels and refreshes, either
`selectedRow = selectedCol = -1` or `0 <= selectedRow < totalRows` and
`0 <= selectedCol < totalCols`; and whenever `isEditing` is true the selection
is an in-grid cell, so the index `selectedRow * totalCols + selectedCol` used
by `startEditing` and `finishEditing` lies in `[0, totalRows * totalCols)`. -/
theorem selection_valid_reachable (cfg : Config) (vp : Viewport)
    (parseFloat : String → Option ℚ) (data : List ℚ) (colors : List Nat) (events : List Event) :
    (initial data colors).selectedRow = -1 ∧ (initial data colors).selectedCol = -1 ∧
    (initial data colors).isEditing = false ∧
    (((run cfg vp parseFloat (initial data colors) events).selectedRow = -1 ∧
        (run cfg vp parseFloat (initial data colors) events).selectedCol = -1) ∨
      (0 ≤ (run cfg vp parseFloat (initial data colors) events).selectedRow ∧
        (run cfg vp parseFloat (initial data colors) events).selectedRow < (cfg.totalRows : Int) ∧
        0 ≤ (run cfg vp parseFloat (initial data colors) events).selectedCol ∧
        (run cfg vp parseFloat (initial data colors) events).selectedCol
          < (cfg.totalCols : Int))) ∧
    ((run cfg vp parseFloat (initial data colors) events).isEditing = true →
      InGrid cfg (run cfg vp parseFloat (initial data colors) events).selectedRow
        (run cfg vp parseFloat (initial data colors) events).selectedCol ∧
      0 ≤ cellIndex cfg (run cfg vp parseFloat (initial data colors) events).selectedRow
        (run cfg vp parseFloat (initial data colors) events).selectedCol ∧
      (cellIndex cfg (run cfg vp parseFloat (initial data colors) events).selectedRow
        (run cfg vp parseFloat (initial data colors) events).selectedCol).toNat
          < cfg.totalRows * cfg.totalCols) := by
  have h0 : SelectionInvariant cfg (initial data colors) :=
    ⟨Or.inl ⟨rfl, rfl⟩, fun h => by simp [initial] at h⟩
  have h := run_invariant cfg vp parseFloat events (initial data colors) h0
  refine ⟨rfl, rfl, rfl, h.1, fun he => ?_⟩
  have hin := h.2 he
  exact ⟨hin, cellIndex_bounds cfg _ _ hin⟩

/-! ## Instances of the draw call and the visible range -/

theorem toU32_intCast (z : Int) (h : z.toNat < u32Size) : toU32 (z : ℚ) = z.toNat := by
  unfold toU32
  rw [Int.floor_intCast]
  exact min_eq_left (by omega)

theorem toU32_natCast (n : Nat) (h : n < u32Size) : toU32 (n : ℚ) = n := by
  unfold toU32
  rw [Int.floor_natCast, Int.toNat_ofNat]
  exact min_eq_left (by omega)

/-- Instance `visCols * localRow + localCol` resolves to the cell
`(startRow + localRow, startCol + localCol)` when nothing wraps. -/
theorem vsResolve_instance (b a a' C R lc lr : Nat) (hb : b + 1 < u32Size)
    (hlc : lc < b + 1) (hcol : a + lc < C) (hrow : a' + lr < R) (hC : C < u32Size)
    (hR : R < u32Size) :
    vsResolve b a a' C R ((b + 1) * lr + lc) = some (a' + lr, a + lc) := by
  have hmod : ((b + 1) * lr + lc) % (b + 1) = lc := by
    rw [Nat.mul_add_mod, Nat.mod_eq_of_lt hlc]
  have hdiv : ((b + 1) * lr + lc) / (b + 1) = lr := by
    rw [Nat.mul_add_div (Nat.succ_pos b), Nat.div_eq_of_lt hlc, Nat.add_zero]
  have hvis : u32Add b 1 = b + 1 := Nat.mod_eq_of_lt hb
  simp only [vsResolve, hvis, u32Mod, u32Div, Nat.succ_ne_zero, if_false, hmod, hdiv]
  have h1 : u32Add a lc = a + lc := Nat.mod_eq_of_lt (by omega)
  have h2 : u32Add a' lr = a' + lr := Nat.mod_eq_of_lt (by omega)
  rw [h1, h2, if_neg (by omega)]

theorem ceil_add_le (sc v w : ℚ) :
    ⌈(sc + v) / w⌉ ≤ ⌊sc / w⌋ + ⌈v / w⌉ + 1 := by
  rw [Int.ceil_le, add_div]
  push_cast
  have h1 := Int.lt_floor_add_one (sc / w)
  have h2 := Int.le_ceil (v / w)
  linarith

theorem ceil_div_pos (v w : ℚ) (hv : 0 < v) (hw : 0 < w) : 0 < ⌈v / w⌉ :=
  Int.ceil_pos.mpr (div_pos hv hw)

theorem toU32_floor_of_eq (x : ℚ) (n : Nat) (h : ⌊x⌋ = (n : Int)) (hn : n < u32Size) :
    toU32 (⌊x⌋ : ℚ) = n := by
  rw [h, Int.cast_natCast]
  exact toU32_natCast n hn

theorem toU32_ceil_of_eq (x : ℚ) (n : Nat) (h : ⌈x⌉ = (n : Int)) (hn : n < u32Size) :
    toU32 (⌈x⌉ : ℚ) = n := by
  rw [h, Int.cast_natCast]
  exact toU32_natCast n hn

theorem instance_index_lt (b b' lc lr : Nat) (hlc : lc < b + 1) (hlr : lr < b' + 1) :
    (b + 1) * lr + lc < (b + 1) * (b' + 1) := by
  calc (b + 1) * lr + lc < (b + 1) * lr + (b + 1) := by omega
    _ = (b + 1) * (lr + 1) := by ring
    _ ≤ (b + 1) * (b' + 1) := Nat.mul_le_mul_left _ (by omega)

/-- Index arithmetic of the instance grid: with the start cell and the column
count taken from the exact quotients, and everything below `2^32`, every cell
of the visible range of `render` is resolved by some instance index below the
instance count. -/
theorem vsResolve_covers_visibleRange (cfg : Config) (vp : Viewport) (s : Grid) (row col : Int)
    (hsx : 0 ≤ s.scrollX) (hsy : 0 ≤ s.scrollY) (hw : 0 < cfg.cellWidth)
    (hh : 0 < cfg.cellHeight) (hvw : 0 < vp.width) (hvh : 0 < vp.height)
    (hC : cfg.totalCols < u32Size) (hR : cfg.totalRows < u32Size)
    (hN : visibleCells cfg vp < (u32Size : Int))
    (hr1 : (visibleRange cfg vp s).startRow ≤ row)
    (hr2 : row < (visibleRange cfg vp s).endRow)
    (hc1 : (visibleRange cfg vp s).startCol ≤ col)
    (hc2 : col < (visibleRange cfg vp s).endCol) :
    ∃ i r c : Nat, i < u32Size ∧ (i : Int) < visibleCells cfg vp ∧
      vsResolve (toU32 (⌈vp.width / cfg.cellWidth⌉ : ℚ))
        (toU32 (⌊s.scrollX / cfg.cellWidth⌋ : ℚ)) (toU32 (⌊s.scrollY / cfg.cellHeight⌋ : ℚ))
        cfg.totalCols cfg.totalRows i = some (r, c) ∧
      (r : Int) = row ∧ (c : Int) = col ∧
      col = (visibleRange cfg vp s).startCol + (i : Int) % visibleCols cfg vp ∧
      row = (visibleRange cfg vp s).startRow + (i : Int) / visibleCols cfg vp := by
  simp only [visibleRange] at hr1 hr2 hc1 hc2 ⊢
  obtain ⟨a, ha⟩ := Int.eq_ofNat_of_zero_le (floor_div_nonneg s.scrollX cfg.cellWidth hsx hw)
  obtain ⟨a', ha'⟩ := Int.eq_ofNat_of_zero_le (floor_div_nonneg s.scrollY cfg.cellHeight hsy hh)
  obtain ⟨b, hb⟩ := Int.eq_ofNat_of_zero_le (le_of_lt (ceil_div_pos vp.width cfg.cellWidth hvw hw))
  obtain ⟨b', hb'⟩ :=
    Int.eq_ofNat_of_zero_le (le_of_lt (ceil_div_pos vp.height cfg.cellHeight hvh hh))
  have hcC : col < (cfg.totalCols : Int) := lt_of_lt_of_le hc2 (min_le_left _ _)
  have hrR : row < (cfg.totalRows : Int) := lt_of_lt_of_le hr2 (min_le_left _ _)
  have hcE := lt_of_lt_of_le (lt_of_lt_of_le hc2 (min_le_right _ _))
    (ceil_add_le s.scrollX vp.width cfg.cellWidth)
  have hrE := lt_of_lt_of_le (lt_of_lt_of_le hr2 (min_le_right _ _))
    (ceil_add_le s.scrollY vp.height cfg.cellHeight)
  obtain ⟨lc, hlc⟩ := Int.eq_ofNat_of_zero_le (sub_nonneg.mpr hc1)
  obtain ⟨lr, hlr⟩ := Int.eq_ofNat_of_zero_le (sub_nonneg.mpr hr1)
  rw [ha] at hc1 hcE hlc
  rw [ha'] at hr1 hrE hlr
  rw [hb] at hcE
  rw [hb'] at hrE
  have hlc1 : lc < b + 1 := by omega
  have hlr1 : lr < b' + 1 := by omega
  have hcnt : (b + 1) * (b' + 1) < u32Size := by
    have h := hN
    simp only [visibleCells, visibleCols, visibleRows, hb, hb'] at h
    exact_mod_cast h
  have hb1 : b + 1 < u32Size :=
    lt_of_le_of_lt (Nat.le_mul_of_pos_right (b + 1) (Nat.succ_pos b')) hcnt
  have hidx := instance_index_lt b b' lc lr hlc1 hlr1
  have hcoln : a + lc < cfg.totalCols := by omega
  have hrown : a' + lr < cfg.totalRows := by omega
  refine ⟨(b + 1) * lr + lc, a' + lr, a + lc, lt_trans hidx hcnt, ?_, ?_, by omega, by omega,
    ?_, ?_⟩
  · simp only [visibleCells, visibleCols, visibleRows, hb, hb']
    exact_mod_cast hidx
  · rw [toU32_ceil_of_eq _ b hb (by omega), toU32_floor_of_eq _ a ha (by omega),
      toU32_floor_of_eq _ a' ha' (by omega)]
    exact vsResolve_instance b a a' _ _ lc lr hb1 hlc1 hcoln hrown hC hR
  · simp only [visibleCols, hb, ha]
    have hmod : ((b + 1) * lr + lc) % (b + 1) = lc := by
      rw [Nat.mul_add_mod, Nat.mod_eq_of_lt hlc1]
    have : (((b + 1) * lr + lc : Nat) : Int) % ((b : Int) + 1) = (lc : Int) := by
      exact_mod_cast congrArg (Nat.cast : Nat → Int) hmod
    rw [this]
    omega
  · simp only [visibleCols, hb, ha']
    have hdiv : ((b + 1) * lr + lc) / (b + 1) = lr := by
      rw [Nat.mul_add_div (Nat.succ_pos b), Nat.div_eq_of_lt hlc1, Nat.add_zero]
    have : (((b + 1) * lr + lc : Nat) : Int) / ((b : Int) + 1) = (lr : Int) := by
      exact_mod_cast congrArg (Nat.cast : Nat → Int) hdiv
    rw [this]
    omega

/-! ## Arrow keys at the grid edge -/

theorem scrollUp_eq_clampScroll (limit sc : ℚ) (h1 : sc ≤ max 0 limit) :
    max 0 (sc - scrollSpeed) = clampScroll limit (sc - scrollSpeed) := by
  unfold clampScroll scrollSpeed
  rcases le_total limit 0 with hl | hl
  · rw [max_eq_left hl] at h1
    rw [max_eq_left (by linarith), max_eq_left (le_trans (min_le_right _ _) hl)]
  · rw [max_eq_right hl] at h1
    rw [min_eq_left (by linarith)]

theorem scrollDown_eq_clampScroll (limit sc : ℚ) (hl : 0 ≤ limit) (h0 : 0 ≤ sc) :
    min limit (sc + scrollSpeed) = clampScroll limit (sc + scrollSpeed) := by
  unfold clampScroll
  rw [min_comm, max_eq_right (le_min (by unfold scrollSpeed; linarith) hl)]

/-- C9 (failing input): on the 3 x 4 grid (320 x 72 pixels) in an 800 x 600
viewport, not editing, with the in-grid cell (2, 0) of the last row selected
and scroll (0, 0), the cell below is outside the grid and ArrowDown keeps the
selection at (2, 0) and `scrollX` at 0, but stores
`scrollY = min(72 - 600, 0 + 200) = -528`, where the step 200 clamped to the
scroll range gives 0. -/
theorem arrowDown_last_row_small_grid_not_clamped (parseFloat : String → Option ℚ) :
    (selectCell smallGrid 2 0).isEditing = false ∧
    InGrid smallConfig 2 0 ∧ ¬ InGrid smallConfig 3 0 ∧
    (keydown smallConfig viewport800x600 parseFloat (selectCell smallGrid 2 0)
      Key.ArrowDown).selectedRow = 2 ∧
    (keydown smallConfig viewport800x600 parseFloat (selectCell smallGrid 2 0)
      Key.ArrowDown).selectedCol = 0 ∧
    (keydown smallConfig viewport800x600 parseFloat (selectCell smallGrid 2 0)
      Key.ArrowDown).scrollX = 0 ∧
    (keydown smallConfig viewport800x600 parseFloat (selectCell smallGrid 2 0)
      Key.ArrowDown).scrollY = -528 ∧
    clampScroll ((smallConfig.totalRows : ℚ) * smallConfig.cellHeight - viewport800x600.height)
      ((selectCell smallGrid 2 0).scrollY + 200) = 0 := by
  refine ⟨rfl, by decide, by decide, ?_, ?_, ?_, ?_, ?_⟩
  · simp [keydown, keydownIdle, selectCell, smallGrid, initial, smallConfig]
  · simp [keydown, keydownIdle, selectCell, smallGrid, initial, smallConfig]
  · simp [keydown, keydownIdle, selectCell, smallGrid, initial, smallConfig]
  · simp [keydown, keydownIdle, selectCell, smallGrid, initial, smallConfig, viewport800x600,
      scrollSpeed]
    norm_num
  · simp [clampScroll, selectCell, smallGrid, initial, smallConfig, viewport800x600]
    norm_num

/-! ## Binary floating point -/

theorem roundNearestEven_intCast (z : Int) : roundNearestEven (z : ℚ) = z := by
  unfold roundNearestEven
  rw [Int.floor_intCast, sub_self, if_pos (by norm_num)]

theorem roundNearestEven_error (y : ℚ) : |(roundNearestEven y : ℚ) - y| ≤ 1 / 2 := by
  unfold roundNearestEven
  have h0 := Int.floor_le y
  have h1 := Int.lt_floor_add_one y
  split_ifs with c1 c2 c3
  · rw [abs_le]; constructor <;> linarith
  · rw [abs_le]; push_cast; constructor <;> linarith
  · rw [abs_le]; constructor <;> linarith
  · rw [abs_le]; push_cast; constructor <;> linarith

theorem binaryUlp_pos (p : Nat) (x : ℚ) : 0 < binaryUlp p x :=
  zpow_pos (by norm_num) _

/-- Relative error of rounding: at most `2^(-p)` times the magnitude. -/
theorem roundBinary_error (p : Nat) (x : ℚ) :
    |roundBinary p x - x| ≤ |x| / 2 ^ p := by
  unfold roundBinary
  split_ifs with hx
  · simp [hx]
  · have hu := binaryUlp_pos p x
    have hxpos : 0 < |x| := abs_pos.mpr hx
    have h1 : (roundNearestEven (x / binaryUlp p x) : ℚ) * binaryUlp p x - x
        = ((roundNearestEven (x / binaryUlp p x) : ℚ) - x / binaryUlp p x) * binaryUlp p x := by
      field_simp
    rw [h1, abs_mul, abs_of_pos hu]
    have h2 := roundNearestEven_error (x / binaryUlp p x)
    have h3 : binaryUlp p x / 2 ≤ |x| / 2 ^ p := by
      have hlog : (2 : ℚ) ^ Int.log 2 |x| ≤ |x| := by
        have := Int.zpow_log_le_self (b := 2) (r := |x|) (by norm_num) hxpos
        simpa using this
      have hsplit : binaryUlp p x / 2 = (2 : ℚ) ^ Int.log 2 |x| / 2 ^ p := by
        unfold binaryUlp
        rw [zpow_sub₀ (by norm_num : (2 : ℚ) ≠ 0), zpow_sub₀ (by norm_num : (2 : ℚ) ≠ 0)]
        simp only [zpow_natCast, zpow_one]
        field_simp
        ring
      rw [hsplit]
      exact div_le_div_of_nonneg_right hlog (by positivity)
    calc |(roundNearestEven (x / binaryUlp p x) : ℚ) - x / binaryUlp p x| * binaryUlp p x
        ≤ 1 / 2 * binaryUlp p x := mul_le_mul_of_nonneg_right h2 (le_of_lt hu)
      _ = binaryUlp p x / 2 := by ring
      _ ≤ |x| / 2 ^ p := h3

/-- Integers of magnitude below `2^p` are floating-point numbers. -/
theorem roundBinary_intCast (p : Nat) (z : Int) (h : |z| < 2 ^ p) :
    roundBinary p (z : ℚ) = z := by
  unfold roundBinary
  split_ifs with hz
  · exact hz.symm
  · have hzpos : (0 : ℚ) < |(z : ℚ)| := abs_pos.mpr hz
    have hlt : |(z : ℚ)| < ((2 : ℕ) : ℚ) ^ ((p : ℕ) : ℤ) := by
      rw [zpow_natCast]
      have : ((|z| : Int) : ℚ) < ((2 ^ p : Int) : ℚ) := Int.cast_lt.mpr h
      simpa using this
    have hlog : Int.log 2 |(z : ℚ)| < p := (Int.lt_zpow_iff_log_lt (by norm_num) hzpos).mp hlt
    obtain ⟨k, hk⟩ := Int.eq_ofNat_of_zero_le (show 0 ≤ (p : Int) - 1 - Int.log 2 |(z : ℚ)| by omega)
    have hu : binaryUlp p (z : ℚ) = 1 / 2 ^ k := by
      unfold binaryUlp
      have : Int.log 2 |(z : ℚ)| - ((p : Int) - 1) = -(k : Int) := by omega
      rw [this, zpow_neg, zpow_natCast, one_div]
    rw [hu]
    have hq : (z : ℚ) / (1 / 2 ^ k) = ((z * 2 ^ k : Int) : ℚ) := by
      push_cast; field_simp
    rw [hq, roundNearestEven_intCast]
    push_cast
    field_simp

theorem int_gap_of_lt (a b : Nat) (hb : 0 < b) (z : Int) (h : (z : ℚ) < (a : ℚ) / b) :
    (z : ℚ) + 1 / b ≤ (a : ℚ) / b := by
  have hbq : (0 : ℚ) < b := by exact_mod_cast hb
  rw [lt_div_iff₀ hbq] at h
  have h1 : z * (b : Int) < (a : Int) := by exact_mod_cast h
  have h2 : z * (b : Int) + 1 ≤ (a : Int) := h1
  have h3 : (z : ℚ) * b + 1 ≤ (a : ℚ) := by exact_mod_cast h2
  rw [le_div_iff₀ hbq]
  have : ((z : ℚ) + 1 / b) * b = (z : ℚ) * b + 1 := by field_simp
  rw [this]
  exact h3

theorem int_gap_of_gt (a b : Nat) (hb : 0 < b) (z : Int) (h : (a : ℚ) / b < (z : ℚ)) :
    (a : ℚ) / b + 1 / b ≤ (z : ℚ) := by
  have hbq : (0 : ℚ) < b := by exact_mod_cast hb
  rw [div_lt_iff₀ hbq] at h
  have h1 : (a : Int) < z * (b : Int) := by exact_mod_cast h
  have h2 : (a : Int) + 1 ≤ z * (b : Int) := h1
  have h3 : (a : ℚ) + 1 ≤ (z : ℚ) * b := by exact_mod_cast h2
  have : (a : ℚ) / b + 1 / b = ((a : ℚ) + 1) / b := by field_simp
  rw [this, div_le_iff₀ hbq]
  exact h3

theorem roundBinary_div_error (p : Nat) (a b : Nat) (hb : 0 < b) (ha : a < 2 ^ p) :
    |roundBinary p ((a : ℚ) / b) - (a : ℚ) / b| < 1 / b := by
  have hbq : (0 : ℚ) < b := by exact_mod_cast hb
  have hq0 : (0 : ℚ) ≤ (a : ℚ) / b := div_nonneg (Nat.cast_nonneg a) (le_of_lt hbq)
  have h1 := roundBinary_error p ((a : ℚ) / b)
  rw [abs_of_nonneg hq0] at h1
  have haq : (a : ℚ) < 2 ^ p := by exact_mod_cast ha
  have h2 : (a : ℚ) / b / 2 ^ p < 1 / b := by
    rw [div_div, div_lt_div_iff₀ (by positivity) hbq]
    have h2p : (0 : ℚ) < 2 ^ p := by positivity
    nlinarith
  exact lt_of_le_of_lt h1 h2

/-- A rounded quotient of naturals, the dividend below `2^p`, lies on the same
side of every integer as the exact quotient. -/
theorem roundBinary_div_sides (p : Nat) (a b : Nat) (hb : 0 < b) (ha : a < 2 ^ p) (z : Int) :
    ((z : ℚ) ≤ (a : ℚ) / b → (z : ℚ) ≤ roundBinary p ((a : ℚ) / b)) ∧
    ((a : ℚ) / b < (z : ℚ) → roundBinary p ((a : ℚ) / b) < (z : ℚ)) ∧
    ((a : ℚ) / b ≤ (z : ℚ) → roundBinary p ((a : ℚ) / b) ≤ (z : ℚ)) ∧
    ((z : ℚ) < (a : ℚ) / b → (z : ℚ) < roundBinary p ((a : ℚ) / b)) := by
  have hbq : (0 : ℚ) < b := by exact_mod_cast hb
  have herr := abs_lt.mp (roundBinary_div_error p a b hb ha)
  have hlt : (z : ℚ) < (a : ℚ) / b → (z : ℚ) < roundBinary p ((a : ℚ) / b) := by
    intro h
    have := int_gap_of_lt a b hb z h
    linarith [herr.1]
  have hgt : (a : ℚ) / b < (z : ℚ) → roundBinary p ((a : ℚ) / b) < (z : ℚ) := by
    intro h
    have := int_gap_of_gt a b hb z h
    linarith [herr.2]
  have heq : (a : ℚ) / b = (z : ℚ) → roundBinary p ((a : ℚ) / b) = (z : ℚ) := by
    intro h
    rw [h]
    apply roundBinary_intCast
    have hz0 : (0 : ℚ) ≤ (z : ℚ) := by rw [← h]; positivity
    have hz0' : 0 ≤ z := by exact_mod_cast hz0
    have hza : (z : ℚ) ≤ (a : ℚ) := by
      rw [← h]
      exact div_le_self (Nat.cast_nonneg a) (by exact_mod_cast hb)
    have hza' : z ≤ (a : Int) := by exact_mod_cast hza
    rw [abs_of_nonneg hz0']
    have : (a : Int) < 2 ^ p := by exact_mod_cast ha
    omega
  refine ⟨fun h => ?_, hgt, fun h => ?_, hlt⟩
  · rcases lt_or_eq_of_le h with h1 | h1
    · exact le_of_lt (hlt h1)
    · exact le_of_eq (heq h1.symm).symm
  · rcases lt_or_eq_of_le h with h1 | h1
    · exact le_of_lt (hgt h1)
    · exact le_of_eq (heq h1)

theorem floor_roundBinary_div (p : Nat) (a b : Nat) (hb : 0 < b) (ha : a < 2 ^ p) :
    ⌊roundBinary p ((a : ℚ) / b)⌋ = ⌊(a : ℚ) / b⌋ := by
  rw [Int.floor_eq_iff]
  constructor
  · exact (roundBinary_div_sides p a b hb ha _).1 (Int.floor_le _)
  · have := (roundBinary_div_sides p a b hb ha (⌊(a : ℚ) / b⌋ + 1)).2.1
    push_cast at this
    exact this (Int.lt_floor_add_one _)

theorem ceil_roundBinary_div (p : Nat) (a b : Nat) (hb : 0 < b) (ha : a < 2 ^ p) :
    ⌈roundBinary p ((a : ℚ) / b)⌉ = ⌈(a : ℚ) / b⌉ := by
  rw [Int.ceil_eq_iff]
  constructor
  · have := (roundBinary_div_sides p a b hb ha (⌈(a : ℚ) / b⌉ - 1)).2.2.2
    push_cast at this
    exact this (by linarith [Int.ceil_lt_add_one ((a : ℚ) / b)])
  · exact (roundBinary_div_sides p a b hb ha _).2.2.1 (Int.le_ceil _)

theorem log2_eq_of_bounds (x : ℚ) (e : Int) (h1 : (2 : ℚ) ^ e ≤ x) (h2 : x < (2 : ℚ) ^ (e + 1)) :
    Int.log 2 x = e := by
  have hx : 0 < x := lt_of_lt_of_le (zpow_pos (by norm_num) e) h1
  apply le_antisymm
  · have := (Int.lt_zpow_iff_log_lt (b := 2) (by norm_num) hx).mp (by simpa using h2)
    omega
  · exact (Int.zpow_le_iff_le_log (b := 2) (by norm_num) hx).mp (by simpa using h1)

theorem toF64_intCast (z : Int) (h : |z| < 2 ^ 53) : toF64 (z : ℚ) = z :=
  roundBinary_intCast 53 z h

theorem toF32_natCast (n : Nat) (h : n < 2 ^ 24) : toF32 (n : ℚ) = n := by
  have h1 : |(n : Int)| < 2 ^ 24 := by
    rw [abs_of_nonneg (Int.ofNat_nonneg n)]
    exact_mod_cast h
  have h2 := roundBinary_intCast 24 (n : Int) h1
  simpa [toF32] using h2

/-! ## `ensureCellVisible` in double precision -/

/-- One axis of `ensureCellVisibleF64` on integer pixel quantities small
enough for every intermediate result to be a double: no operation rounds. -/
theorem ensure_axis_f64_exact (k W V X : Int) (hb : |k * W| + |W| + |V| + |X| < 2 ^ 53) :
    (if toF64 ((k : ℚ) * (W : ℚ)) < (X : ℚ) then toF64 ((k : ℚ) * (W : ℚ))
      else if toF64 (toF64 ((k : ℚ) * (W : ℚ)) + (W : ℚ)) > toF64 ((X : ℚ) + (V : ℚ)) then
        toF64 (toF64 (toF64 ((k : ℚ) * (W : ℚ)) + (W : ℚ)) - (V : ℚ))
      else (X : ℚ))
    = (if (k : ℚ) * (W : ℚ) < (X : ℚ) then (k : ℚ) * (W : ℚ)
      else if (k : ℚ) * (W : ℚ) + (W : ℚ) > (X : ℚ) + (V : ℚ) then
        (k : ℚ) * (W : ℚ) + (W : ℚ) - (V : ℚ)
      else (X : ℚ)) := by
  have a1 := abs_nonneg (k * W)
  have a2 := abs_nonneg W
  have a3 := abs_nonneg V
  have a4 := abs_nonneg X
  have b1 := abs_add (k * W) W
  have b2 := abs_sub (k * W + W) V
  have b3 := abs_add X V
  have e1 : toF64 ((k : ℚ) * (W : ℚ)) = (k : ℚ) * (W : ℚ) := by
    have := toF64_intCast (k * W) (by linarith)
    simpa using this
  have e2 : toF64 ((k : ℚ) * (W : ℚ) + (W : ℚ)) = (k : ℚ) * (W : ℚ) + (W : ℚ) := by
    have := toF64_intCast (k * W + W) (by linarith)
    simpa using this
  have e3 : toF64 ((X : ℚ) + (V : ℚ)) = (X : ℚ) + (V : ℚ) := by
    have := toF64_intCast (X + V) (by linarith)
    simpa using this
  have e4 : toF64 ((k : ℚ) * (W : ℚ) + (W : ℚ) - (V : ℚ))
      = (k : ℚ) * (W : ℚ) + (W : ℚ) - (V : ℚ) := by
    have := toF64_intCast (k * W + W - V) (by linarith)
    simpa using this
  rw [e1, e2, e3, e4]

theorem ensureCellVisibleF64_eq_exact (cfg : Config) (vp : Viewport) (s : Grid) (row col : Int)
    (W H VW VH X Y : Int) (hW : cfg.cellWidth = W) (hH : cfg.cellHeight = H)
    (hVW : vp.width = VW) (hVH : vp.height = VH) (hX : s.scrollX = X) (hY : s.scrollY = Y)
    (hbx : |col * W| + |W| + |VW| + |X| < 2 ^ 53)
    (hby : |row * H| + |H| + |VH| + |Y| < 2 ^ 53) :
    ensureCellVisibleF64 cfg vp s row col = ensureCellVisible cfg vp s row col := by
  unfold ensureCellVisibleF64 ensureCellVisible
  simp only [hW, hH, hVW, hVH, hX, hY]
  rw [ensure_axis_f64_exact col W VW X hbx, ensure_axis_f64_exact row H VH Y hby]

/-- C2 (amended): when the cell width and height, the viewport width and
height and the scroll offsets are integers, small enough for the handler's
double arithmetic to be exact (`|col * cellWidth| + cellWidth + viewportWidth +
|scrollX| < 2^53` and likewise vertically), and the viewport is at least one
cell wide and one cell high, then after `ensureCellVisible(row, col)` the
cell's full rectangle lies within the viewport. -/
theorem ensureCellVisibleF64_fully_visible (cfg : Config) (vp : Viewport) (s : Grid)
    (row col : Int) (W H VW VH X Y : Int) (hW : cfg.cellWidth = W) (hH : cfg.cellHeight = H)
    (hVW : vp.width = VW) (hVH : vp.height = VH) (hX : s.scrollX = X) (hY : s.scrollY = Y)
    (hbx : |col * W| + |W| + |VW| + |X| < 2 ^ 53)
    (hby : |row * H| + |H| + |VH| + |Y| < 2 ^ 53)
    (hw : cfg.cellWidth ≤ vp.width) (hh : cfg.cellHeight ≤ vp.height) :
    CellFullyVisible cfg vp (ensureCellVisibleF64 cfg vp s row col) row col := by
  rw [ensureCellVisibleF64_eq_exact cfg vp s row col W H VW VH X Y hW hH hVW hVH hX hY hbx hby]
  exact ensureCellVisible_fully_visible_exact cfg vp s row col hw hh

theorem ensureCellVisibleF64_fully_visible_witness :
    (ensureCellVisibleF64 defaultConfig viewport800x600 defaultGrid 40 12).scrollX = 240 ∧
    (ensureCellVisibleF64 defaultConfig viewport800x600 defaultGrid 40 12).scrollY = 384 ∧
    CellFullyVisible defaultConfig viewport800x600
      (ensureCellVisibleF64 defaultConfig viewport800x600 defaultGrid 40 12) 40 12 := by
  have hW : defaultConfig.cellWidth = ((80 : Int) : ℚ) := by norm_num [defaultConfig]
  have hH : defaultConfig.cellHeight = ((24 : Int) : ℚ) := by norm_num [defaultConfig]
  have hVW : viewport800x600.width = ((800 : Int) : ℚ) := by norm_num [viewport800x600]
  have hVH : viewport800x600.height = ((600 : Int) : ℚ) := by norm_num [viewport800x600]
  have hX : defaultGrid.scrollX = ((0 : Int) : ℚ) := by norm_num [defaultGrid, initial]
  have hY : defaultGrid.scrollY = ((0 : Int) : ℚ) := by norm_num [defaultGrid, initial]
  have heq := ensureCellVisibleF64_eq_exact defaultConfig viewport800x600 defaultGrid 40 12
    80 24 800 600 0 0 hW hH hVW hVH hX hY (by norm_num) (by norm_num)
  refine ⟨?_, ?_, ensureCellVisibleF64_fully_visible defaultConfig viewport800x600 defaultGrid
    40 12 80 24 800 600 0 0 hW hH hVW hVH hX hY (by norm_num) (by norm_num) (by decide)
    (by decide)⟩
  · rw [heq]
    simp only [ensureCellVisible, defaultGrid, initial, defaultConfig, viewport800x600]
    norm_num
  · rw [heq]
    simp only [ensureCellVisible, defaultGrid, initial, defaultConfig, viewport800x600]
    norm_num

/-! ## Evaluating a rounding -/

theorem roundNearestEven_eq_of_near (y : ℚ) (n : Int) (h : |y - (n : ℚ)| < 1 / 2) :
    roundNearestEven y = n := by
  have h1 := abs_le.mp (roundNearestEven_error y)
  have h2 := abs_lt.mp h
  have h3 : ((roundNearestEven y : Int) : ℚ) < ((n + 1 : Int) : ℚ) := by
    push_cast; linarith [h1.2, h2.1]
  have h4 : ((n - 1 : Int) : ℚ) < ((roundNearestEven y : Int) : ℚ) := by
    push_cast; linarith [h1.1, h2.2]
  have h5 := Int.cast_lt.mp h3
  have h6 := Int.cast_lt.mp h4
  omega

/-- Value of a rounding from the binade of `x` and the nearest multiple of the
spacing. -/
theorem roundBinary_eq_of_near (p : Nat) (x : ℚ) (e n : Int) (h1 : (2 : ℚ) ^ e ≤ |x|)
    (h2 : |x| < (2 : ℚ) ^ (e + 1))
    (h3 : |x / (2 : ℚ) ^ (e - ((p : Int) - 1)) - (n : ℚ)| < 1 / 2) :
    roundBinary p x = (n : ℚ) * (2 : ℚ) ^ (e - ((p : Int) - 1)) := by
  have hlog : Int.log 2 |x| = e := log2_eq_of_bounds |x| e h1 h2
  have hx : x ≠ 0 := by
    intro h0
    rw [h0, abs_zero] at h1
    exact absurd h1 (not_le.mpr (zpow_pos (by norm_num) e))
  unfold roundBinary binaryUlp
  rw [if_neg hx, hlog, roundNearestEven_eq_of_near _ n h3]

theorem roundNearestEven_of_tie_even (y : ℚ) (f : Int) (hy : y = (f : ℚ) + 1 / 2)
    (hf : f % 2 = 0) : roundNearestEven y = f := by
  have hfl : ⌊y⌋ = f := by
    rw [Int.floor_eq_iff, hy]
    constructor <;> linarith
  unfold roundNearestEven
  rw [hfl, hy, if_neg (by norm_num), if_neg (by norm_num), if_pos hf]

/-- Value of a rounding that falls on a tie with an even lower neighbour. -/
theorem roundBinary_eq_of_tie_even (p : Nat) (x : ℚ) (e n : Int) (h1 : (2 : ℚ) ^ e ≤ |x|)
    (h2 : |x| < (2 : ℚ) ^ (e + 1))
    (h3 : x / (2 : ℚ) ^ (e - ((p : Int) - 1)) = (n : ℚ) + 1 / 2) (hn : n % 2 = 0) :
    roundBinary p x = (n : ℚ) * (2 : ℚ) ^ (e - ((p : Int) - 1)) := by
  have hlog : Int.log 2 |x| = e := log2_eq_of_bounds |x| e h1 h2
  have hx : x ≠ 0 := by
    intro h0
    rw [h0, abs_zero] at h1
    exact absurd h1 (not_le.mpr (zpow_pos (by norm_num) e))
  unfold roundBinary binaryUlp
  rw [if_neg hx, hlog, roundNearestEven_of_tie_even _ n h3 hn]

/-- Rounding alone can push the cell over the viewport edge: with
`cellWidth = 80.1`, viewport width `800.1` (as doubles), scroll (0, 0) and
column 23, `ensureCellVisible` stores `scrollX = 1122.2999999999997` and the
cell's right edge `24 * cellWidth` exceeds `scrollX + viewportWidth`. -/
theorem ensureCellVisibleF64_rounding_breaks_edge :
    fractionalCellConfig.cellWidth ≤ fractionalViewport.width ∧
    fractionalCellConfig.cellHeight ≤ fractionalViewport.height ∧
    (ensureCellVisibleF64 fractionalCellConfig fractionalViewport defaultGrid 0 23).scrollX
      = 2467963799706009 / 2199023255552 ∧
    ¬ CellFullyVisible fractionalCellConfig fractionalViewport
      (ensureCellVisibleF64 fractionalCellConfig fractionalViewport defaultGrid 0 23) 0 23 := by
  have e1 : toF64 (((23 : Int) : ℚ) * (2818268204315443 / 35184372088832))
      = 8102521087406899 / 4398046511104 := by
    unfold toF64
    rw [roundBinary_eq_of_near 53 _ 10 8102521087406899 (by norm_num [abs_of_pos])
      (by norm_num [abs_of_pos]) (by norm_num [zpow_neg, abs_lt])]
    norm_num [zpow_neg]
  have e2 : toF64 ((8102521087406899 / 4398046511104 : ℚ) + 2818268204315443 / 35184372088832)
      = 8454804612946329 / 4398046511104 := by
    unfold toF64
    rw [roundBinary_eq_of_near 53 _ 10 8454804612946329 (by norm_num [abs_of_pos])
      (by norm_num [abs_of_pos]) (by norm_num [zpow_neg, abs_lt])]
    norm_num [zpow_neg]
  have e3 : toF64 ((0 : ℚ) + 7037754027068621 / 8796093022208)
      = 7037754027068621 / 8796093022208 := by
    unfold toF64
    rw [roundBinary_eq_of_near 53 _ 9 7037754027068621 (by norm_num [abs_of_pos])
      (by norm_num [abs_of_pos]) (by norm_num [zpow_neg, abs_lt])]
    norm_num [zpow_neg]
  have e4 : toF64 ((8454804612946329 / 4398046511104 : ℚ) - 7037754027068621 / 8796093022208)
      = 2467963799706009 / 2199023255552 := by
    unfold toF64
    rw [roundBinary_eq_of_tie_even 53 _ 10 4935927599412018 (by norm_num [abs_of_pos])
      (by norm_num [abs_of_pos]) (by norm_num [zpow_neg]) (by norm_num)]
    norm_num [zpow_neg]
  have hx : (ensureCellVisibleF64 fractionalCellConfig fractionalViewport defaultGrid 0 23).scrollX
      = 2467963799706009 / 2199023255552 := by
    simp only [ensureCellVisibleF64, fractionalCellConfig, fractionalViewport, defaultGrid,
      initial]
    rw [e1, e2, e3, e4, if_neg (by norm_num), if_pos (by norm_num)]
  refine ⟨by norm_num [fractionalCellConfig, fractionalViewport],
    by norm_num [fractionalCellConfig, fractionalViewport], hx, ?_⟩
  intro h
  have h2 := h.2.1
  rw [hx] at h2
  simp only [fractionalCellConfig, fractionalViewport] at h2
  norm_num at h2

/-! ## Vertex stage on `f32` uniforms -/

/-- On natural-number pixel quantities below `2^24` the uniform block holds the
exact values and the three `f32` quotients have the floor and ceiling of the
exact quotients: the vertex stage starts from the same cell as `render`. -/
theorem vsCell_eq_of_exact_uniforms (cfg : Config) (vp : Viewport) (s : Grid)
    (X Y W H VW : Nat) (hX : s.scrollX = X) (hY : s.scrollY = Y) (hW : cfg.cellWidth = W)
    (hH : cfg.cellHeight = H) (hVW : vp.width = VW)
    (bX : X < 2 ^ 24) (bY : Y < 2 ^ 24) (bW : W < 2 ^ 24) (bH : H < 2 ^ 24)
    (bVW : VW < 2 ^ 24) (pW : 0 < W) (pH : 0 < H)
    (hC : cfg.totalCols < 2 ^ 24) (hR : cfg.totalRows < 2 ^ 24) (i : Nat) :
    vsCell cfg vp s i
      = vsResolve (toU32 (⌈vp.width / cfg.cellWidth⌉ : ℚ))
          (toU32 (⌊s.scrollX / cfg.cellWidth⌋ : ℚ)) (toU32 (⌊s.scrollY / cfg.cellHeight⌋ : ℚ))
          cfg.totalCols cfg.totalRows i := by
  unfold vsCell vsMain uniformData
  simp only [hX, hY, hW, hH, hVW]
  rw [toF32_natCast X bX, toF32_natCast Y bY, toF32_natCast W bW, toF32_natCast H bH,
    toF32_natCast VW bVW, toF32_natCast cfg.totalCols hC, toF32_natCast cfg.totalRows hR]
  unfold toF32
  rw [ceil_roundBinary_div 24 VW W pW bVW, floor_roundBinary_div 24 X W pW bX,
    floor_roundBinary_div 24 Y H pH bY,
    toU32_natCast cfg.totalCols (lt_trans hC (by decide)),
    toU32_natCast cfg.totalRows (lt_trans hR (by decide))]

/-- C11 (amended): when `scrollX`, `scrollY`, the cell width and height and the
viewport width are natural numbers below `2^24` (so that the `f32` uniform
block and the shader's quotients lose nothing), the cell and viewport sizes
are positive, `totalRows` and `totalCols` are below `2^24` and the
instance count `(ceil(viewportWidth/cellWidth)+1) *
(ceil(viewportHeight/cellHeight)+1)` is below `2^32`, every cell (row, col) of
the visible range of `render` is the cell resolved by the vertex stage for
some `u32` instance index `i < instanceCount`, with
`col = startCol + (i mod visibleCols)` and `row = startRow + (i div visibleCols)`. -/
theorem visible_cell_has_instance_f32 (cfg : Config) (vp : Viewport) (s : Grid)
    (row col : Int) (X Y W H VW : Nat) (hX : s.scrollX = X) (hY : s.scrollY = Y)
    (hW : cfg.cellWidth = W) (hH : cfg.cellHeight = H) (hVW : vp.width = VW)
    (bX : X < 2 ^ 24) (bY : Y < 2 ^ 24) (bW : W < 2 ^ 24)
    (bH : H < 2 ^ 24) (bVW : VW < 2 ^ 24) (pW : 0 < W) (pH : 0 < H)
    (pVW : 0 < VW) (hvh : 0 < vp.height) (hC : cfg.totalCols < 2 ^ 24)
    (hR : cfg.totalRows < 2 ^ 24)
    (hN : visibleCells cfg vp < (u32Size : Int))
    (hr1 : (visibleRange cfg vp s).startRow ≤ row)
    (hr2 : row < (visibleRange cfg vp s).endRow)
    (hc1 : (visibleRange cfg vp s).startCol ≤ col)
    (hc2 : col < (visibleRange cfg vp s).endCol) :
    ∃ i r c : Nat, i < u32Size ∧ (i : Int) < visibleCells cfg vp ∧
      vsCell cfg vp s i = some (r, c) ∧ (r : Int) = row ∧ (c : Int) = col ∧
      col = (visibleRange cfg vp s).startCol + (i : Int) % visibleCols cfg vp ∧
      row = (visibleRange cfg vp s).startRow + (i : Int) / visibleCols cfg vp := by
  have hsx : 0 ≤ s.scrollX := by rw [hX]; exact Nat.cast_nonneg X
  have hsy : 0 ≤ s.scrollY := by rw [hY]; exact Nat.cast_nonneg Y
  have hw : 0 < cfg.cellWidth := by rw [hW]; exact_mod_cast pW
  have hh : 0 < cfg.cellHeight := by rw [hH]; exact_mod_cast pH
  have hvw : 0 < vp.width := by rw [hVW]; exact_mod_cast pVW
  obtain ⟨i, r, c, h1, h2, h3, h4⟩ :=
    vsResolve_covers_visibleRange cfg vp s row col hsx hsy hw hh hvw hvh
      (lt_trans hC (by decide)) (lt_trans hR (by decide)) hN hr1 hr2 hc1 hc2
  refine ⟨i, r, c, h1, h2, ?_, h4⟩
  rw [vsCell_eq_of_exact_uniforms cfg vp s X Y W H VW hX hY hW hH hVW bX bY bW bH bVW
    pW pH hC hR i]
  exact h3

theorem visible_cell_has_instance_f32_witness :
    ∃ i r c : Nat, i < u32Size ∧ (i : Int) < visibleCells defaultConfig viewport800x600 ∧
      vsCell defaultConfig viewport800x600 defaultGrid i = some (r, c) ∧
      (r : Int) = 24 ∧ (c : Int) = 9 ∧
      (9 : Int) = (visibleRange defaultConfig viewport800x600 defaultGrid).startCol
        + (i : Int) % visibleCols defaultConfig viewport800x600 ∧
      (24 : Int) = (visibleRange defaultConfig viewport800x600 defaultGrid).startRow
        + (i : Int) / visibleCols defaultConfig viewport800x600 :=
  visible_cell_has_instance_f32 defaultConfig viewport800x600 defaultGrid 24 9
    0 0 80 24 800
    (by norm_num [defaultGrid, initial]) (by norm_num [defaultGrid, initial])
    (by norm_num [defaultConfig]) (by norm_num [defaultConfig])
    (by norm_num [viewport800x600])
    (by norm_num) (by norm_num) (by norm_num) (by norm_num) (by norm_num)
    (by norm_num) (by norm_num) (by norm_num) (by decide)
    (by norm_num [defaultConfig]) (by norm_num [defaultConfig])
    (by
      simp only [visibleCells, visibleCols, visibleRows, defaultConfig, viewport800x600, u32Size]
      norm_num)
    (by simp only [visibleRange, defaultGrid, initial, defaultConfig, viewport800x600]; norm_num)
    (by simp only [visibleRange, defaultGrid, initial, defaultConfig, viewport800x600]; norm_num)
    (by simp only [visibleRange, defaultGrid, initial, defaultConfig, viewport800x600]; norm_num)
    (by simp only [visibleRange, defaultGrid, initial, defaultConfig, viewport800x600]; norm_num)

theorem toF32_zero : toF32 0 = 0 := by
  simp [toF32, roundBinary]

theorem nearColumnGrid_scroll :
    nearColumnGrid.scrollX = 799999999 / 10000000 ∧ nearColumnGrid.scrollY = 0 := by
  constructor
  · simp only [nearColumnGrid, wheel, clampScroll, defaultGrid, initial, defaultConfig,
      viewport800x600]
    norm_num
  · simp only [nearColumnGrid, wheel, clampScroll, defaultGrid, initial, defaultConfig,
      viewport800x600]
    norm_num

/-- The `Float32Array` store rounds `scrollX = 79.9999999` up to 80. -/
theorem toF32_near_eighty : toF32 (799999999 / 10000000) = 80 := by
  unfold toF32
  rw [roundBinary_eq_of_near 24 _ 6 10485760 (by norm_num [abs_of_pos])
    (by norm_num [abs_of_pos]) (by norm_num [zpow_neg, abs_lt])]
  norm_num [zpow_neg]

theorem vsCell_nearColumnGrid (i : Nat) :
    vsCell defaultConfig viewport800x600 nearColumnGrid i = vsResolve 10 1 0 1000 1000 i := by
  have n800 : toF32 (800 : ℚ) = 800 := by simpa using toF32_natCast 800 (by norm_num)
  have n80 : toF32 (80 : ℚ) = 80 := by simpa using toF32_natCast 80 (by norm_num)
  have n24 : toF32 (24 : ℚ) = 24 := by simpa using toF32_natCast 24 (by norm_num)
  have n10 : toF32 (10 : ℚ) = 10 := by simpa using toF32_natCast 10 (by norm_num)
  have n1 : toF32 (1 : ℚ) = 1 := by simpa using toF32_natCast 1 (by norm_num)
  have n1000 : toF32 ((1000 : Nat) : ℚ) = ((1000 : Nat) : ℚ) := toF32_natCast 1000 (by norm_num)
  have q1 : toF32 ((800 : ℚ) / 80) = 10 := by
    rw [show (800 : ℚ) / 80 = 10 by norm_num]; exact n10
  have q2 : toF32 ((80 : ℚ) / 80) = 1 := by
    rw [show (80 : ℚ) / 80 = 1 by norm_num]; exact n1
  have q3 : toF32 ((0 : ℚ) / 24) = 0 := by
    rw [show (0 : ℚ) / 24 = 0 by norm_num]; exact toF32_zero
  have u1 : toU32 ((⌈(10 : ℚ)⌉ : Int) : ℚ) = 10 := by
    rw [show ⌈(10 : ℚ)⌉ = ((10 : Nat) : Int) by norm_num, Int.cast_natCast]
    exact toU32_natCast 10 (by decide)
  have u2 : toU32 ((⌊(1 : ℚ)⌋ : Int) : ℚ) = 1 := by
    rw [show ⌊(1 : ℚ)⌋ = ((1 : Nat) : Int) by norm_num, Int.cast_natCast]
    exact toU32_natCast 1 (by decide)
  have u3 : toU32 ((⌊(0 : ℚ)⌋ : Int) : ℚ) = 0 := by
    rw [show ⌊(0 : ℚ)⌋ = ((0 : Nat) : Int) by norm_num, Int.cast_natCast]
    exact toU32_natCast 0 (by decide)
  have u4 : toU32 ((1000 : Nat) : ℚ) = 1000 := toU32_natCast 1000 (by decide)
  unfold vsCell vsMain uniformData
  simp only [nearColumnGrid_scroll.1, nearColumnGrid_scroll.2, defaultConfig, viewport800x600]
  rw [toF32_near_eighty, toF32_zero, n800, n80, n24, n1000, q1, q2, q3, u1, u2, u3, u4]

/-- C11 (as stated, refuted): on the default grid (1000 x 1000 cells of
80 x 24 pixels, viewport 800 x 600, instance count 11 * 26 = 286) scrolled to
`scrollX = 79.9999999` by one wheel event, `render` starts the visible range
at column 0, while the uniform block holds `scrollX` as the `f32` 80 and the
vertex stage starts at column 1: no instance index resolves to a cell of
column 0. -/
theorem f32_uniform_moves_start_column :
    (0 : ℚ) ≤ nearColumnGrid.scrollX ∧ (0 : ℚ) ≤ nearColumnGrid.scrollY ∧
    0 < defaultConfig.cellWidth ∧ 0 < defaultConfig.cellHeight ∧
    0 < viewport800x600.width ∧ 0 < viewport800x600.height ∧
    visibleCells defaultConfig viewport800x600 = 286 ∧
    (visibleRange defaultConfig viewport800x600 nearColumnGrid).startRow ≤ 0 ∧
    0 < (visibleRange defaultConfig viewport800x600 nearColumnGrid).endRow ∧
    (visibleRange defaultConfig viewport800x600 nearColumnGrid).startCol ≤ 0 ∧
    0 < (visibleRange defaultConfig viewport800x600 nearColumnGrid).endCol ∧
    ∀ i r : Nat, vsCell defaultConfig viewport800x600 nearColumnGrid i ≠ some (r, 0) := by
  obtain ⟨hx, hy⟩ := nearColumnGrid_scroll
  refine ⟨by rw [hx]; norm_num, by rw [hy], by decide, by decide, by decide, by decide, ?_, ?_,
    ?_, ?_, ?_, ?_⟩
  · simp only [visibleCells, visibleCols, visibleRows, defaultConfig, viewport800x600]
    norm_num
  · simp only [visibleRange, hy, defaultConfig, viewport800x600]; norm_num
  · simp only [visibleRange, hy, defaultConfig, viewport800x600]; norm_num
  · simp only [visibleRange, hx, defaultConfig, viewport800x600]; norm_num
  · simp only [visibleRange, hx, defaultConfig, viewport800x600]; norm_num
  · intro i r h
    rw [vsCell_nearColumnGrid] at h
    have hv : u32Add 10 1 = 11 := by norm_num [u32Add, u32Size]
    simp only [vsResolve, hv, u32Mod, u32Div, OfNat.ofNat_ne_zero, if_false] at h
    simp only [u32Add, u32Size] at h
    split_ifs at h
    simp only [Option.some.injEq, Prod.mk.injEq] at h
    omega

theorem toF32_one_over_128 : toF32 (1 / 128) = 1 / 128 := by
  unfold toF32
  rw [roundBinary_eq_of_near 24 _ (-7) 8388608 (by norm_num [zpow_neg, abs_of_pos])
    (by norm_num [zpow_neg, abs_of_pos]) (by norm_num [zpow_neg, abs_lt])]
  norm_num [zpow_neg]

theorem vsCell_tiny_cells (i : Nat) :
    vsCell tinyCellConfig viewport800x600 tinyCellGrid i
      = vsResolve 102400 0 0 10 50000 i := by
  have n800 : toF32 (800 : ℚ) = 800 := by simpa using toF32_natCast 800 (by norm_num)
  have nq : toF32 (102400 : ℚ) = 102400 := by simpa using toF32_natCast 102400 (by norm_num)
  have nC : toF32 ((10 : Nat) : ℚ) = ((10 : Nat) : ℚ) := toF32_natCast 10 (by norm_num)
  have nR : toF32 ((50000 : Nat) : ℚ) = ((50000 : Nat) : ℚ) := toF32_natCast 50000 (by norm_num)
  have q1 : toF32 ((800 : ℚ) / (1 / 128)) = 102400 := by
    rw [show (800 : ℚ) / (1 / 128) = 102400 by norm_num]; exact nq
  have q2 : toF32 ((0 : ℚ) / (1 / 128)) = 0 := by
    rw [show (0 : ℚ) / (1 / 128) = 0 by norm_num]; exact toF32_zero
  have u1 : toU32 ((⌈(102400 : ℚ)⌉ : Int) : ℚ) = 102400 := by
    rw [show ⌈(102400 : ℚ)⌉ = ((102400 : Nat) : Int) by norm_num, Int.cast_natCast]
    exact toU32_natCast 102400 (by decide)
  have u3 : toU32 ((⌊(0 : ℚ)⌋ : Int) : ℚ) = 0 := by
    rw [show ⌊(0 : ℚ)⌋ = ((0 : Nat) : Int) by norm_num, Int.cast_natCast]
    exact toU32_natCast 0 (by decide)
  have u4 : toU32 ((10 : Nat) : ℚ) = 10 := toU32_natCast 10 (by decide)
  have u5 : toU32 ((50000 : Nat) : ℚ) = 50000 := toU32_natCast 50000 (by decide)
  unfold vsCell vsMain uniformData
  simp only [tinyCellGrid, initial, tinyCellConfig, viewport800x600]
  rw [toF32_zero, n800, toF32_one_over_128, nC, nR, q1, q2, u1, u3, u4, u5]

/-- Instance indices are 32-bit: with 50000 x 10 cells of 1/128 x 1/128 pixels
(exact in `f32`) in an 800 x 600 viewport at scroll (0, 0), cell (45000, 0) is
in the visible range of `render`, the instance count 102401 * 76801 exceeds
`2^32`, and no `u32` instance index resolves to cell (45000, 0). -/
theorem tiny_cells_visible_cell_without_instance :
    (visibleRange tinyCellConfig viewport800x600 tinyCellGrid).startRow ≤ 45000 ∧
    45000 < (visibleRange tinyCellConfig viewport800x600 tinyCellGrid).endRow ∧
    (visibleRange tinyCellConfig viewport800x600 tinyCellGrid).startCol ≤ 0 ∧
    0 < (visibleRange tinyCellConfig viewport800x600 tinyCellGrid).endCol ∧
    visibleCells tinyCellConfig viewport800x600 = 102401 * 76801 ∧
    ∀ i : Nat, i < u32Size →
      vsCell tinyCellConfig viewport800x600 tinyCellGrid i ≠ some (45000, 0) := by
  refine ⟨?_, ?_, ?_, ?_, ?_, ?_⟩
  · simp only [visibleRange, tinyCellGrid, initial, tinyCellConfig, viewport800x600]; norm_num
  · simp only [visibleRange, tinyCellGrid, initial, tinyCellConfig, viewport800x600]; norm_num
  · simp only [visibleRange, tinyCellGrid, initial, tinyCellConfig, viewport800x600]; norm_num
  · simp only [visibleRange, tinyCellGrid, initial, tinyCellConfig, viewport800x600]; norm_num
  · simp only [visibleCells, visibleCols, visibleRows, tinyCellConfig, viewport800x600]; norm_num
  · intro i hi h
    rw [vsCell_tiny_cells] at h
    have hv : u32Add 102400 1 = 102401 := by norm_num [u32Add, u32Size]
    simp only [vsResolve, hv, u32Mod, u32Div, OfNat.ofNat_ne_zero, if_false] at h
    simp only [u32Add, u32Size] at h hi
    split_ifs at h
    simp only [Option.some.injEq, Prod.mk.injEq] at h
    omega

/-- The narrow-viewport run is the same with double rounding: all its
quantities are small integers, so `scrollX = 30` is what the handler stores. -/
theorem ensureCellVisibleF64_narrow_viewport :
    ensureCellVisibleF64 defaultConfig viewport50x600 defaultGrid 0 0
      = ensureCellVisible defaultConfig viewport50x600 defaultGrid 0 0 :=
  ensureCellVisibleF64_eq_exact defaultConfig viewport50x600 defaultGrid 0 0 80 24 50 600 0 0
    (by norm_num [defaultConfig]) (by norm_num [defaultConfig])
    (by norm_num [viewport50x600]) (by norm_num [viewport50x600])
    (by norm_num [defaultGrid, initial]) (by norm_num [defaultGrid, initial])
    (by norm_num) (by norm_num)

end VeryGrid
